import Mathlib

/-!
# go_uploader: upload and download handlers

A shallow embedding of `uploader/handlers.go` and `uploader/errors.go`.

* Go strings are lists of characters (`Str`), byte slices are lists of naturals (`Bytes`).
* The `http.ResponseWriter` is the list of calls made on it, in order.
* Library calls whose outcome is not determined by the request (file system,
  JPEG codec, `strconv.ParseFloat`, `http.DetectContentType`, `uuid.New`) are fields
  of an environment record; `path/filepath` and the `float64` operations the handlers
  use are modelled concretely.
-/

set_option autoImplicit false
set_option maxRecDepth 16384

namespace Uploader

/-! ## Strings and bytes -/

/-- A Go `string`. -/
abbrev Str := List Char

/-- A Go `[]byte`. -/
abbrev Bytes := List Nat

/-! ## errors.go -/

def MISSING_OR_INVALID_SCALE : Str := "MISSING_OR_INVALID_SCALE".toList
def MISSING_OR_INVALID_USERID : Str := "MISSING_OR_INVALID_USERID".toList
def MISSING_OR_INVALID_FILENAME : Str := "MISSING_OR_INVALID_FILENAME".toList
def FILE_NOT_FOUND_FOR_USER : Str := "FILE_NOT_FOUND_FOR_USER".toList
def CANT_PARSE_FORM : Str := "CANT_PARSE_FORM".toList
def CANT_READ_FILE : Str := "CANT_READ_FILE".toList
def CANT_WRITE_FILE : Str := "CANT_WRITE_FILE".toList
def CANT_READ_FILE_TYPE : Str := "CANT_READ_FILE_TYPE".toList
def INVALID_FILE_TYPE : Str := "INVALID_FILE_TYPE".toList
def INVALID_FILE : Str := "INVALID_FILE".toList
def FILE_TOO_BIG : Str := "FILE_TOO_BIG".toList

def StatusOK : Nat := 200
def StatusBadRequest : Nat := 400
def StatusNotFound : Nat := 404
def StatusInternalServerError : Nat := 500

/-! ## handlers.go: constants -/

def maxUploadSize : Nat := 512 * 1024
def uploadPath : Str := "./receipts".toList

/-! ## `path/filepath` on Unix

`filepath.Clean` works lexically on the `/`-separated elements of the path: empty
elements and `.` are dropped, `..` removes the element before it, a `..` that has
nothing to remove is kept in a relative path and dropped in a rooted one, and the
empty result is `.`.  `filepath.Join` drops leading empty elements, joins the rest
with `/` and cleans the result. -/

/-- The `/`-separated elements of a path (`strings.Split(path, "/")`). -/
def splitSlash : Str → List Str
  | [] => [[]]
  | c :: cs =>
    if c = '/' then [] :: splitSlash cs
    else match splitSlash cs with
      | [] => [[c]]
      | s :: ss => (c :: s) :: ss

/-- Elements joined with `/` (`strings.Join(elems, "/")`). -/
def joinSlash : List Str → Str
  | [] => []
  | [e] => e
  | e :: es => e ++ '/' :: joinSlash es

/-- One step of the loop of `filepath.Clean` on the next path element; `stack` holds
the elements written so far, the last one first. -/
def cleanStep (rooted : Bool) (stack : List Str) (e : Str) : List Str :=
  if e = [] then stack
  else if e = ['.'] then stack
  else if e = ['.', '.'] then
    match stack with
    | [] => if rooted then [] else [e]
    | top :: rest => if top = ['.', '.'] then e :: stack else rest
  else e :: stack

/-- The elements `filepath.Clean` keeps, first one first. -/
def cleanElems (rooted : Bool) (elems : List Str) : List Str :=
  (elems.foldl (cleanStep rooted) []).reverse

/-- The Go function `filepath.Clean`. -/
def Clean (path : Str) : Str :=
  if path = [] then ['.']
  else
    let rooted : Bool := path.head? = some '/'
    let out := cleanElems rooted (splitSlash path)
    if rooted then '/' :: joinSlash out
    else if out = [] then ['.'] else joinSlash out

/-- The Go function `filepath.Join`. -/
def Join : List Str → Str
  | [] => []
  | e :: es => if e = [] then Join es else Clean (joinSlash (e :: es))

/-- The storage root as a cleaned path. -/
def storageRoot : Str := Clean uploadPath

/-- A cleaned path lies inside the storage root when it is the root itself or
continues it with a separator. -/
def insideRoot (p : Str) : Prop :=
  p = storageRoot ∨ (storageRoot ++ ['/']) <+: p

instance (p : Str) : Decidable (insideRoot p) := by
  unfold insideRoot; exact inferInstance

/-- No element of the value is `..`. -/
def noDotDot (s : Str) : Prop := ['.', '.'] ∉ splitSlash s

instance (s : Str) : Decidable (noDotDot s) := by
  unfold noDotDot; exact inferInstance

/-! ## `float64`

A `float64` is NaN, an infinity, or a finite value `m * 2^e`.  The sign of zero
is not represented; no operation below observes it. -/

inductive F64 where
  | nan
  | inf (neg : Bool)
  | fin (m : Int) (e : Int)
  deriving DecidableEq, Repr

namespace F64

/-- The order `<` on two finite values `m₁ * 2^e₁` and `m₂ * 2^e₂`. -/
def dyadicLt (m₁ e₁ m₂ e₂ : Int) : Bool :=
  let e := min e₁ e₂
  decide (m₁ * 2 ^ (e₁ - e).toNat < m₂ * 2 ^ (e₂ - e).toNat)

/-- The Go operator `<` on `float64`: false whenever an operand is NaN. -/
def lt : F64 → F64 → Bool
  | nan, _ => false
  | _, nan => false
  | inf a, inf b => a && !b
  | inf a, fin _ _ => a
  | fin _ _, inf b => !b
  | fin m₁ e₁, fin m₂ e₂ => dyadicLt m₁ e₁ m₂ e₂

/-- The Go operator `>` on `float64`. -/
def gt (a b : F64) : Bool := lt b a

def bitLenAux : Nat → Nat → Nat
  | 0, _ => 0
  | fuel + 1, n => if n = 0 then 0 else bitLenAux fuel (n / 2) + 1

/-- Number of binary digits of `n`. -/
def bitLen (n : Nat) : Nat := bitLenAux n n

/-- The value `n / 2^k` rounded to the nearest integer, ties to even. -/
def rneShift (n k : Nat) : Nat :=
  if k = 0 then n
  else
    let q := n / 2 ^ k
    let r := n % 2 ^ k
    let half := 2 ^ (k - 1)
    if r < half then q
    else if half < r then q + 1
    else if q % 2 = 0 then q else q + 1

def signed (neg : Bool) (n : Nat) : Int := if neg then -(n : Int) else (n : Int)

/-- The `float64` nearest to `± n * 2^e` (round to nearest, ties to even; 53 bits of
mantissa, least exponent `-1074`, overflow to infinity). -/
def round (neg : Bool) (n : Nat) (e : Int) : F64 :=
  let k : Int := max ((bitLen n : Int) - 53) (-1074 - e)
  if k ≤ 0 then
    if (bitLen n : Int) + e > 1024 then inf neg else fin (signed neg n) e
  else
    let r := rneShift n k.toNat
    if (bitLen r : Int) + (e + k) > 1024 then inf neg else fin (signed neg r) (e + k)

/-- The conversion `float64(i)` of an `int`. -/
def ofInt (i : Int) : F64 := round (decide (i < 0)) i.natAbs 0

/-- The Go operator `*` on `float64`. -/
def mul : F64 → F64 → F64
  | nan, _ => nan
  | _, nan => nan
  | inf a, inf b => inf (a != b)
  | inf a, fin m _ => if m = 0 then nan else inf (a != decide (m < 0))
  | fin m _, inf b => if m = 0 then nan else inf (decide (m < 0) != b)
  | fin m₁ e₁, fin m₂ e₂ =>
    round (decide (m₁ < 0) != decide (m₂ < 0)) (m₁.natAbs * m₂.natAbs) (e₁ + e₂)

/-- The value `m * 2^e` truncated toward zero. -/
def truncFin (m e : Int) : Int :=
  if 0 ≤ e then m * 2 ^ e.toNat else Int.tdiv m (2 ^ (-e).toNat)

/-- The conversion `uint(f)` (64 bits): truncation toward zero when the truncated
value is representable; otherwise the result is implementation-dependent and is
the argument `implDep`. -/
def toUint (implDep : Nat) : F64 → Nat
  | fin m e =>
    let t := truncFin m e
    if 0 ≤ t ∧ t < 2 ^ 64 then t.toNat else implDep
  | _ => implDep

/-- The rational number a finite `float64` denotes. -/
def toRat : F64 → Option ℚ
  | fin m e => some ((m : ℚ) * (2 : ℚ) ^ e)
  | _ => none

end F64

/-- The constant `smallestDownScale = 0.1` as a `float64`:
`3602879701896397 * 2^-55`, the double nearest to one tenth. -/
def smallestDownScale : F64 := F64.fin 3602879701896397 (-55)

/-- The constant `largestUpScale = 2.0` as a `float64`. -/
def largestUpScale : F64 := F64.fin 2 0

/-! ## `net/http`: query values, response writer -/

/-- The Go type `url.Values`: each key with its list of values. -/
abbrev Values := List (Str × List Str)

/-- The images handled by `image/jpeg`; the pixels play no role in the handlers. -/
structure Image where
  width : Nat
  height : Nat
  pix : Bytes
  deriving DecidableEq, Repr

/-- The interpolation functions of `github.com/nfnt/resize` that matter here. -/
inductive Interp where
  | NearestNeighbor
  | Bilinear
  deriving DecidableEq, Repr

/-- The image `resize.Resize(width, height, img, interp)` returns, kept as the
arguments of the call. -/
structure Resized where
  width : Nat
  height : Nat
  img : Image
  interp : Interp
  deriving DecidableEq, Repr

/-- A call on the `http.ResponseWriter`. -/
inductive Call where
  /-- The call `w.WriteHeader(status)`. -/
  | WriteHeader (status : Nat)
  /-- The call `w.Write(body)`. -/
  | Write (body : Str)
  /-- The call `t.Execute(w, nil)` on the parsed template file. -/
  | Execute (template : Str)
  /-- The call `jpeg.Encode(w, img, &jpeg.Options{Quality: quality})`; `none` is the
  `nil` image. -/
  | Encode (img : Option Resized) (quality : Nat)
  deriving DecidableEq, Repr

/-- The function `generateError` of errors.go (the log line is not modelled). -/
def generateError (message : Str) (statusCode : Nat) : List Call :=
  [Call.WriteHeader statusCode, Call.Write message]

/-- The status code of a response: the first `WriteHeader`, or 200 when the
handler writes the body without one. -/
def statusOf : List Call → Nat
  | Call.WriteHeader status :: _ => status
  | _ => StatusOK

/-- The bytes written as the body with `w.Write`. -/
def bodyOf : List Call → Str
  | [] => []
  | Call.Write body :: rest => body ++ bodyOf rest
  | _ :: rest => bodyOf rest

/-- The handler called the JPEG encoder. -/
def callsEncoder (calls : List Call) : Bool :=
  calls.any fun c => match c with
    | Call.Encode _ _ => true
    | _ => false

/-! ## Download -/

/-- Outcome of `os.Stat` as far as `os.IsNotExist` tells. -/
inductive StatResult where
  | found
  | notExist
  | otherError
  deriving DecidableEq, Repr

/-- The library calls of the download handler. -/
structure DownloadEnv where
  /-- The call `strconv.ParseFloat(s, 64)`; `none` when it returns an error. -/
  ParseFloat : Str → Option F64
  /-- The call `os.Stat(path)`. -/
  Stat : Str → StatResult
  /-- The call `ioutil.ReadFile(path)`; `none` when it returns an error. -/
  ReadFile : Str → Option Bytes
  /-- The call `jpeg.DecodeConfig`, giving `config.Width`; `none` on error. -/
  DecodeConfig : Bytes → Option Int
  /-- The call `jpeg.Decode`; `none` on error. -/
  Decode : Bytes → Option Image
  /-- What `uint(f)` yields on this platform when `f` is out of range. -/
  uintImplDep : Nat

/-- The function `parseScale`, on the parsed query `r.URL.Query()`. -/
def parseScale (env : DownloadEnv) (query : Values) : Except Str F64 :=
  match query.lookup "scale".toList with
  | none => .error "MISSING_OR_INVALID_SCALE".toList
  | some [] => .error "MISSING_OR_INVALID_SCALE".toList
  | some (scaleStr :: _) =>
    match env.ParseFloat scaleStr with
    | none => .error MISSING_OR_INVALID_SCALE
    | some scaleVal =>
      if F64.lt scaleVal smallestDownScale || F64.gt scaleVal largestUpScale then
        .error MISSING_OR_INVALID_SCALE
      else .ok scaleVal

/-- The function `parseUserID`, on the parsed query `r.URL.Query()`. -/
def parseUserID (query : Values) : Except Str Str :=
  match query.lookup "userid".toList with
  | none => .error MISSING_OR_INVALID_USERID
  | some [] => .error MISSING_OR_INVALID_USERID
  | some (userID :: _) => .ok userID

/-- The function `parseFileName`, on the parsed query `r.URL.Query()`. -/
def parseFileName (query : Values) : Except Str Str :=
  match query.lookup "filename".toList with
  | none => .error MISSING_OR_INVALID_FILENAME
  | some [] => .error MISSING_OR_INVALID_FILENAME
  | some (fileName :: _) => .ok fileName

/-- The function `resizeImage`; the image it returns is the call of `resize.Resize`. -/
def resizeImage (env : DownloadEnv) (path : Str) (scale : F64) : Except Str Resized :=
  match env.ReadFile path with
  | none => .error CANT_READ_FILE
  | some imageRawData =>
    match env.DecodeConfig imageRawData with
    | none => .error CANT_READ_FILE
    | some width =>
      let newWidth := F64.toUint env.uintImplDep (F64.mul (F64.ofInt width) scale)
      match env.Decode imageRawData with
      | none => .error CANT_READ_FILE
      | some img => .ok ⟨newWidth, 0, img, Interp.NearestNeighbor⟩

/-- The handler `DownloadFileHandler`, on the parsed query of the request. -/
def DownloadFileHandler (env : DownloadEnv) (query : Values) : List Call :=
  match parseScale env query with
  | .error err => generateError err StatusBadRequest
  | .ok scale =>
    match parseUserID query with
    | .error err => generateError err StatusBadRequest
    | .ok userID =>
      match parseFileName query with
      | .error err => generateError err StatusBadRequest
      | .ok fileName =>
        let imagePath := Join [uploadPath, userID, fileName]
        if env.Stat imagePath = StatResult.notExist then
          generateError FILE_NOT_FOUND_FOR_USER StatusNotFound
        else
          match resizeImage env imagePath scale with
          | .error err =>
            -- no `return` follows `generateError` here: the handler goes on to
            -- `jpeg.Encode` with `resizedImage == nil`
            generateError err StatusInternalServerError ++ [Call.Encode none 95]
          | .ok resizedImage => [Call.Encode (some resizedImage) 95]

/-! ## Upload -/

/-- A file part of the parsed form: what `r.FormFile` returns for it. -/
structure FilePart where
  /-- The file name the client gave. -/
  Filename : Str
  /-- The `Content-Type` the client declared for the part. -/
  ContentType : Str
  /-- The field `fileHeader.Size`. -/
  Size : Nat
  /-- The call `ioutil.ReadAll(file)`; `none` when it returns an error. -/
  ReadAll : Option Bytes

/-- The parsed request: `r.Form` and `r.MultipartForm.File`.  A part that cannot
be opened counts as absent. -/
structure MultipartForm where
  Value : Values
  File : List (Str × List FilePart)

/-- An upload request: its method, the number of body bytes the multipart reader
has to read, and the form the body encodes (`none` when it is not a well-formed
multipart form). -/
structure UploadRequest where
  /-- The field `r.Method`. -/
  Method : Str
  /-- The bytes of `r.Body` the multipart reader has to read: boundaries, part headers
  and the contents of all parts. -/
  bodyLen : Nat
  /-- The form the body encodes. -/
  form : Option MultipartForm

/-- The limit `http.MaxBytesReader(w, r.Body, 2*512*1024)` puts on the body. -/
def maxBodySize : Nat := 2 * 512 * 1024

/-- The call `r.ParseMultipartForm(maxUploadSize)` on the body limited by
`http.MaxBytesReader`: reading past the limit is an error. -/
def ParseMultipartForm (r : UploadRequest) : Option MultipartForm :=
  if r.bodyLen > maxBodySize then none else r.form

/-- The call `r.FormValue(key)`: the first value of the key, or the empty string. -/
def FormValue (form : MultipartForm) (key : Str) : Str :=
  match form.Value.lookup key with
  | some (v :: _) => v
  | _ => []

/-- The call `r.FormFile(key)`: the first file of the key; `none` is the error. -/
def FormFile (form : MultipartForm) (key : Str) : Option FilePart :=
  match form.File.lookup key with
  | some (f :: _) => some f
  | _ => none

/-- The library calls of the upload handler. -/
structure UploadEnv where
  /-- The function `http.DetectContentType`. -/
  DetectContentType : Bytes → Str
  /-- The value of `uuid.New().String()` for this request. -/
  uuid : Str
  /-- The call `os.Create(path)` returns an error. -/
  createErr : Str → Bool
  /-- The call `newFile.Write` returns an error. -/
  writeErr : Str → Bool
  /-- The call `newFile.Close()` returns an error. -/
  closeErr : Str → Bool

/-- A call on the file system. -/
inductive FsCall where
  | MkdirAll (path : Str) (perm : Nat)
  | Create (path : Str)
  | Write (path : Str) (data : Bytes)
  | WriteFailed (path : Str)
  | Close (path : Str)
  deriving DecidableEq, Repr

/-- What the upload handler did: the calls on the response writer and on the
file system. -/
structure UploadResult where
  resp : List Call
  fs : List FsCall
  deriving DecidableEq, Repr

/-- The handler `UploadFileHandler`. -/
def UploadFileHandler (env : UploadEnv) (r : UploadRequest) : UploadResult :=
  if r.Method = "GET".toList then ⟨[Call.Execute "upload.html".toList], []⟩
  else
    match ParseMultipartForm r with
    | none => ⟨generateError CANT_PARSE_FORM StatusInternalServerError, []⟩
    | some form =>
      let userID := FormValue form "userID".toList
      if userID.length = 0 then
        ⟨generateError MISSING_OR_INVALID_USERID StatusBadRequest, []⟩
      else
        match FormFile form "uploadFile".toList with
        | none => ⟨generateError INVALID_FILE StatusBadRequest, []⟩
        | some file =>
          let fileSize := file.Size
          if fileSize > maxUploadSize then
            ⟨generateError FILE_TOO_BIG StatusBadRequest, []⟩
          else
            match file.ReadAll with
            | none => ⟨generateError INVALID_FILE StatusBadRequest, []⟩
            | some fileBytes =>
              let detectedFileType := env.DetectContentType fileBytes
              if detectedFileType = "image/jpeg".toList
                  ∨ detectedFileType = "image/jpg".toList then
                let fileName := env.uuid
                let folderPath := Join [uploadPath, userID]
                let imagePath := Join [folderPath, fileName ++ ".jpg".toList]
                let mk := FsCall.MkdirAll folderPath 0o700
                if env.createErr imagePath then
                  ⟨generateError CANT_WRITE_FILE StatusInternalServerError, [mk]⟩
                else if env.writeErr imagePath then
                  ⟨generateError CANT_WRITE_FILE StatusInternalServerError,
                    [mk, FsCall.Create imagePath, FsCall.WriteFailed imagePath,
                      FsCall.Close imagePath]⟩
                else if env.closeErr imagePath then
                  ⟨generateError CANT_WRITE_FILE StatusInternalServerError,
                    [mk, FsCall.Create imagePath, FsCall.Write imagePath fileBytes,
                      FsCall.Close imagePath]⟩
                else
                  ⟨[Call.Write fileName],
                    [mk, FsCall.Create imagePath, FsCall.Write imagePath fileBytes,
                      FsCall.Close imagePath]⟩
              else
                ⟨generateError INVALID_FILE_TYPE StatusBadRequest, []⟩

/-- The regular files on disk, by cleaned path. -/
abbrev Disk := List (Str × Bytes)

/-- The effect of one file-system call on the files. -/
def Disk.step (d : Disk) : FsCall → Disk
  | FsCall.Create path => (path, []) :: d.filter (fun f => f.1 ≠ path)
  | FsCall.Write path data =>
    (path, (d.lookup path).getD [] ++ data) :: d.filter (fun f => f.1 ≠ path)
  | _ => d

/-- The files after a sequence of calls. -/
def Disk.run (d : Disk) (calls : List FsCall) : Disk := calls.foldl Disk.step d

/-- The path a file-system call works on. -/
def FsCall.path : FsCall → Str
  | FsCall.MkdirAll path _ => path
  | FsCall.Create path => path
  | FsCall.Write path _ => path
  | FsCall.WriteFailed path => path
  | FsCall.Close path => path

/-- Two download environments that differ at most in what `os.Stat` and
`ioutil.ReadFile` report for paths outside the storage root. -/
def agreeInsideRoot (env env' : DownloadEnv) : Prop :=
  env.ParseFloat = env'.ParseFloat ∧ env.DecodeConfig = env'.DecodeConfig ∧
  env.Decode = env'.Decode ∧ env.uintImplDep = env'.uintImplDep ∧
  ∀ p, insideRoot p → env.Stat p = env'.Stat p ∧ env.ReadFile p = env'.ReadFile p

/-! ## Example requests and environments -/

/-- The JPEG row of the signature table of `http.DetectContentType`: data that
starts with `FF D8 FF` is `image/jpeg`.  Every other row is reported here as
`application/octet-stream`. -/
def sniffJPEG (data : Bytes) : Str :=
  if [0xFF, 0xD8, 0xFF] <+: data then "image/jpeg".toList
  else "application/octet-stream".toList

/-- A few values of `strconv.ParseFloat(s, 64)`. -/
def parseFloatTable (s : Str) : Option F64 :=
  if s = "NaN".toList then some F64.nan
  else if s = "1.0".toList then some (F64.fin 1 0)
  else if s = "1.5".toList then some (F64.fin 3 (-1))
  else if s = "0.25".toList then some (F64.fin 1 (-2))
  else if s = "-1.0".toList then some (F64.fin (-1) 0)
  else none

def exampleUUID : Str := "2b72ad28-9ce9-4e3e-b9f9-2af537ae0d4f".toList

/-- An upload environment in which every file-system call succeeds. -/
def uploadEnvOk : UploadEnv where
  DetectContentType := sniffJPEG
  uuid := exampleUUID
  createErr := fun _ => false
  writeErr := fun _ => false
  closeErr := fun _ => false

/-- An upload environment in which `os.Create` fails. -/
def uploadEnvCreateFails : UploadEnv where
  DetectContentType := sniffJPEG
  uuid := exampleUUID
  createErr := fun _ => true
  writeErr := fun _ => false
  closeErr := fun _ => false

/-- A baseline JPEG file of 7 by 1 gray pixels (159 bytes). -/
def jpegBytes : Bytes :=
  [0xFF, 0xD8, 0xFF, 0xE0, 0x00, 0x10, 0x4A, 0x46, 0x49, 0x46, 0x00, 0x01, 0x01, 0x00,
   0x00, 0x01, 0x00, 0x01, 0x00, 0x00, 0xFF, 0xDB, 0x00, 0x43, 0x00, 0x50, 0x37, 0x3C,
   0x46, 0x3C, 0x32, 0x50, 0x46, 0x41, 0x46, 0x5A, 0x55, 0x50, 0x5F, 0x78, 0xC8, 0x82,
   0x78, 0x6E, 0x6E, 0x78, 0xF5, 0xAF, 0xB9, 0x91, 0xC8, 0xFF, 0xFF, 0xFF, 0xFF, 0xFF,
   0xFF, 0xFF, 0xFF, 0xFF, 0xFF, 0xFF, 0xFF, 0xFF, 0xFF, 0xFF, 0xFF, 0xFF, 0xFF, 0xFF,
   0xFF, 0xFF, 0xFF, 0xFF, 0xFF, 0xFF, 0xFF, 0xFF, 0xFF, 0xFF, 0xFF, 0xFF, 0xFF, 0xFF,
   0xFF, 0xFF, 0xFF, 0xFF, 0xFF, 0xFF, 0xC0, 0x00, 0x0B, 0x08, 0x00, 0x01, 0x00, 0x07,
   0x01, 0x01, 0x11, 0x00, 0xFF, 0xC4, 0x00, 0x14, 0x00, 0x01, 0x00, 0x00, 0x00, 0x00,
   0x00, 0x00, 0x00, 0x00, 0x00, 0x00, 0x00, 0x00, 0x00, 0x00, 0x00, 0x00, 0xFF, 0xC4,
   0x00, 0x14, 0x10, 0x01, 0x00, 0x00, 0x00, 0x00, 0x00, 0x00, 0x00, 0x00, 0x00, 0x00,
   0x00, 0x00, 0x00, 0x00, 0x00, 0x00, 0xFF, 0xDA, 0x00, 0x08, 0x01, 0x01, 0x00, 0x00,
   0x3F, 0x00, 0x3F, 0xFF, 0xD9]

/-- The first bytes of a PNG file. -/
def pngBytes : Bytes := [0x89, 0x50, 0x4E, 0x47, 0x0D, 0x0A, 0x1A, 0x0A]

def filePartOf (name : Str) (data : Bytes) : FilePart where
  Filename := name
  ContentType := "image/jpeg".toList
  Size := data.length
  ReadAll := some data

/-- A POST request with the given `userID` field and `uploadFile` part. -/
def postRequest (bodyLen : Nat) (userID : Str) (file : FilePart) : UploadRequest where
  Method := "POST".toList
  bodyLen := bodyLen
  form := some
    { Value := [("userID".toList, [userID])]
      File := [("uploadFile".toList, [file])] }

/-- A POST request with the given `userID` field and `uploadFile` part and one more
field, `note`, whose value has 1 MiB. -/
def paddedRequest (userID : Str) (file : FilePart) : UploadRequest where
  Method := "POST".toList
  bodyLen := 1049400
  form := some
    { Value := [("userID".toList, [userID]), ("note".toList, [List.replicate 1048576 'x'])]
      File := [("uploadFile".toList, [file])] }

/-- A part of one byte more than 1 MiB. -/
def hugePart : FilePart where
  Filename := "too_large_image.jpg".toList
  ContentType := "image/jpeg".toList
  Size := 1048577
  ReadAll := some (jpegBytes ++ List.replicate 1048418 0)

/-- A part of one byte more than 512 KiB. -/
def bigPart : FilePart where
  Filename := "too_large_image.jpg".toList
  ContentType := "image/jpeg".toList
  Size := 524289
  ReadAll := some (jpegBytes ++ List.replicate 524130 0)

/-- A download query with the three parameters. -/
def downloadQuery (scale userid filename : Str) : Values :=
  [("scale".toList, [scale]), ("userid".toList, [userid]), ("filename".toList, [filename])]

/-- A download environment over a disk that holds one file, `receipts/a1bc/bad.jpg`,
whose bytes pass the upload sniffing and are not a decodable JPEG. -/
def downloadEnvBadFile : DownloadEnv where
  ParseFloat := parseFloatTable
  Stat := fun p => if p = "receipts/a1bc/bad.jpg".toList then StatResult.found
    else StatResult.notExist
  ReadFile := fun p => if p = "receipts/a1bc/bad.jpg".toList then some [0xFF, 0xD8, 0xFF]
    else none
  DecodeConfig := fun _ => none
  Decode := fun _ => none
  uintImplDep := 0

/-- A download environment over a disk that holds one file, `receipts/a1bc/F.jpg`,
with the bytes `jpegBytes`: an image 7 pixels wide and 1 pixel high. -/
def downloadEnvImage : DownloadEnv where
  ParseFloat := parseFloatTable
  Stat := fun p => if p = "receipts/a1bc/F.jpg".toList then StatResult.found
    else StatResult.notExist
  ReadFile := fun p => if p = "receipts/a1bc/F.jpg".toList then some jpegBytes else none
  DecodeConfig := fun data => if data = jpegBytes then some 7 else none
  Decode := fun data => if data = jpegBytes then some ⟨7, 1, []⟩ else none
  uintImplDep := 0

/-- A download environment over a disk that holds one regular file,
`receipts/a1bc/bad.jpg`.  For a path that goes through that file as if it were a
directory, `os.Stat` fails with `ENOTDIR`, an error for which `os.IsNotExist` is false,
and `ioutil.ReadFile` fails too. -/
def downloadEnvNotDir : DownloadEnv where
  ParseFloat := parseFloatTable
  Stat := fun p =>
    if p = "receipts/a1bc/bad.jpg".toList then StatResult.found
    else if "receipts/a1bc/bad.jpg/".toList <+: p then StatResult.otherError
    else StatResult.notExist
  ReadFile := fun p => if p = "receipts/a1bc/bad.jpg".toList then some [0xFF, 0xD8, 0xFF]
    else none
  DecodeConfig := fun _ => none
  Decode := fun _ => none
  uintImplDep := 0

/-! ## `parseUserID`, `parseFileName` -/

/-- Claim C3, at the failing input `?scale=1.0&userid=&filename=x.jpg`: a `userid` (or
`filename`) parameter that is present with the empty string as its value is returned by
`parseUserID` (`parseFileName`) without an error, whatever follows it in the query, and the
handler goes on to the file-system check and answers 404 `FILE_NOT_FOUND_FOR_USER`, not 400
`MISSING_OR_INVALID_USERID`. -/
theorem parseUserID_accepts_empty_value :
    (∀ (more : List Str) (rest : Values),
      parseUserID (("userid".toList, [] :: more) :: rest) = .ok []) ∧
    (∀ (more : List Str) (rest : Values),
      parseFileName (("filename".toList, [] :: more) :: rest) = .ok []) ∧
    DownloadFileHandler downloadEnvBadFile
        (downloadQuery "1.0".toList [] "x.jpg".toList)
      = generateError FILE_NOT_FOUND_FOR_USER StatusNotFound ∧
    DownloadFileHandler downloadEnvBadFile
        (downloadQuery "1.0".toList [] "x.jpg".toList)
      ≠ generateError MISSING_OR_INVALID_USERID StatusBadRequest := by
  refine ⟨?_, ?_, by decide, by decide⟩
  · intro more rest
    simp [parseUserID, List.lookup]
  · intro more rest
    simp [parseFileName, List.lookup]

/-! ## Download: missing file -/

theorem resizeImage_error (env : DownloadEnv) (path : Str) (scale : F64) (err : Str)
    (h : resizeImage env path scale = .error err) : err = CANT_READ_FILE := by
  unfold resizeImage at h
  split at h
  · injection h with h; exact h.symm
  · split at h
    · injection h with h; exact h.symm
    · dsimp only at h
      split at h
      · injection h with h; exact h.symm
      · exact absurd h (by simp)

/-- Claim C7 as stated fails: on a disk whose only file is the regular file
`receipts/a1bc/bad.jpg`, the request `?scale=1.0&userid=a1bc/bad.jpg&filename=x` passes
validation and no file exists at `receipts/a1bc/bad.jpg/x`, but `os.Stat` fails with
`ENOTDIR`, which `os.IsNotExist` does not recognise, and the handler answers 500
`CANT_READ_FILE` (and goes on to the encoder), not 404 `FILE_NOT_FOUND_FOR_USER`. -/
theorem download_missing_file_not_always_404 :
    parseScale downloadEnvNotDir
        (downloadQuery "1.0".toList "a1bc/bad.jpg".toList "x".toList) = .ok (F64.fin 1 0) ∧
    parseUserID (downloadQuery "1.0".toList "a1bc/bad.jpg".toList "x".toList)
      = .ok "a1bc/bad.jpg".toList ∧
    parseFileName (downloadQuery "1.0".toList "a1bc/bad.jpg".toList "x".toList)
      = .ok "x".toList ∧
    Join [uploadPath, "a1bc/bad.jpg".toList, "x".toList] = "receipts/a1bc/bad.jpg/x".toList ∧
    downloadEnvNotDir.Stat "receipts/a1bc/bad.jpg/x".toList = StatResult.otherError ∧
    downloadEnvNotDir.ReadFile "receipts/a1bc/bad.jpg/x".toList = none ∧
    DownloadFileHandler downloadEnvNotDir
        (downloadQuery "1.0".toList "a1bc/bad.jpg".toList "x".toList)
      = [Call.WriteHeader 500, Call.Write CANT_READ_FILE, Call.Encode none 95] ∧
    DownloadFileHandler downloadEnvNotDir
        (downloadQuery "1.0".toList "a1bc/bad.jpg".toList "x".toList)
      ≠ [Call.WriteHeader 404, Call.Write FILE_NOT_FOUND_FOR_USER] := by
  refine ⟨rfl, rfl, rfl, by decide, by decide, by decide, by decide, by decide⟩

/-- Claim C7, amended: a download request whose three parameters pass validation gets
status 404 and body `FILE_NOT_FOUND_FOR_USER`, and nothing else is written, exactly when
`os.Stat` on the joined path fails with an error that `os.IsNotExist` recognises; the
response does not depend on which element of the path is the missing one.  When
`os.Stat` succeeds or fails with another error the response is not this one. -/
theorem download_missing_file_404 (env : DownloadEnv) (query : Values)
    (scale : F64) (userID fileName : Str)
    (hscale : parseScale env query = .ok scale)
    (huser : parseUserID query = .ok userID)
    (hfile : parseFileName query = .ok fileName) :
    (env.Stat (Join [uploadPath, userID, fileName]) = StatResult.notExist →
      DownloadFileHandler env query
          = [Call.WriteHeader 404, Call.Write FILE_NOT_FOUND_FOR_USER] ∧
        statusOf (DownloadFileHandler env query) = 404 ∧
        bodyOf (DownloadFileHandler env query) = "FILE_NOT_FOUND_FOR_USER".toList) ∧
    (DownloadFileHandler env query
        = [Call.WriteHeader 404, Call.Write FILE_NOT_FOUND_FOR_USER] →
      env.Stat (Join [uploadPath, userID, fileName]) = StatResult.notExist) := by
  refine ⟨?_, ?_⟩
  · intro hstat
    have h : DownloadFileHandler env query
        = [Call.WriteHeader 404, Call.Write FILE_NOT_FOUND_FOR_USER] := by
      simp [DownloadFileHandler, hscale, huser, hfile, hstat, generateError, StatusNotFound]
    rw [h]
    exact ⟨rfl, rfl, by decide⟩
  · intro h
    by_contra hstat
    unfold DownloadFileHandler at h
    rw [hscale, huser, hfile] at h
    dsimp only at h
    rw [if_neg hstat] at h
    split at h
    · simp [generateError] at h
    · simp at h

/-- Claim C7, amended, at two requests on a disk that holds only `receipts/a1bc/bad.jpg`:
an unknown user directory and an unknown file of a known user. -/
theorem download_missing_file_404_witness :
    (DownloadFileHandler downloadEnvBadFile
        (downloadQuery "1.0".toList "INVALID_ID".toList "bad.jpg".toList)
      = [Call.WriteHeader 404, Call.Write FILE_NOT_FOUND_FOR_USER]) ∧
    (DownloadFileHandler downloadEnvBadFile
        (downloadQuery "1.0".toList "a1bc".toList "INVALID_FILE_NAME.jpg".toList)
      = [Call.WriteHeader 404, Call.Write FILE_NOT_FOUND_FOR_USER]) :=
  ⟨((download_missing_file_404 downloadEnvBadFile
      (downloadQuery "1.0".toList "INVALID_ID".toList "bad.jpg".toList)
      (F64.fin 1 0) "INVALID_ID".toList "bad.jpg".toList
      rfl rfl rfl).1 (by decide)).1,
   ((download_missing_file_404 downloadEnvBadFile
      (downloadQuery "1.0".toList "a1bc".toList "INVALID_FILE_NAME.jpg".toList)
      (F64.fin 1 0) "a1bc".toList "INVALID_FILE_NAME.jpg".toList
      rfl rfl rfl).1 (by decide)).1⟩

/-! ## Download: failure of `resizeImage` -/

/-- Claim C8, what the code does: when `resizeImage` fails on an existing path, the
handler writes status 500 and the error code and then, having no `return`, still calls
`jpeg.Encode` with the nil image. -/
theorem download_resize_error_falls_through (env : DownloadEnv) (query : Values)
    (scale : F64) (userID fileName err : Str)
    (hscale : parseScale env query = .ok scale)
    (huser : parseUserID query = .ok userID)
    (hfile : parseFileName query = .ok fileName)
    (hstat : env.Stat (Join [uploadPath, userID, fileName]) ≠ StatResult.notExist)
    (hresize : resizeImage env (Join [uploadPath, userID, fileName]) scale = .error err) :
    DownloadFileHandler env query
        = [Call.WriteHeader 500, Call.Write err, Call.Encode none 95] ∧
      callsEncoder (DownloadFileHandler env query) = true := by
  have h : DownloadFileHandler env query
      = [Call.WriteHeader 500, Call.Write err, Call.Encode none 95] := by
    simp [DownloadFileHandler, hscale, huser, hfile, hstat, hresize, generateError,
      StatusInternalServerError]
  rw [h]
  exact ⟨rfl, rfl⟩

/-- Claim C8 at the failing input: `receipts/a1bc/bad.jpg` holds `FF D8 FF`, which cannot
be decoded. -/
theorem download_resize_error_falls_through_witness :
    DownloadFileHandler downloadEnvBadFile
        (downloadQuery "1.0".toList "a1bc".toList "bad.jpg".toList)
      = [Call.WriteHeader 500, Call.Write CANT_READ_FILE, Call.Encode none 95] :=
  (download_resize_error_falls_through downloadEnvBadFile
    (downloadQuery "1.0".toList "a1bc".toList "bad.jpg".toList)
    (F64.fin 1 0) "a1bc".toList "bad.jpg".toList CANT_READ_FILE
    rfl rfl rfl (by decide) rfl).1

/-! ## Upload: the outcome of each step -/

theorem UploadFileHandler_parse_error (env : UploadEnv) (r : UploadRequest)
    (hmethod : r.Method ≠ "GET".toList) (hparse : ParseMultipartForm r = none) :
    UploadFileHandler env r = ⟨[Call.WriteHeader 500, Call.Write CANT_PARSE_FORM], []⟩ := by
  simp only [UploadFileHandler, hmethod, hparse, if_false]
  rfl

theorem UploadFileHandler_empty_userID (env : UploadEnv) (r : UploadRequest)
    (form : MultipartForm)
    (hmethod : r.Method ≠ "GET".toList) (hparse : ParseMultipartForm r = some form)
    (huser : FormValue form "userID".toList = []) :
    UploadFileHandler env r
      = ⟨[Call.WriteHeader 400, Call.Write MISSING_OR_INVALID_USERID], []⟩ := by
  simp only [UploadFileHandler, hmethod, hparse, huser, if_false, List.length_nil, if_true]
  rfl

theorem UploadFileHandler_no_file (env : UploadEnv) (r : UploadRequest)
    (form : MultipartForm)
    (hmethod : r.Method ≠ "GET".toList) (hparse : ParseMultipartForm r = some form)
    (huser : FormValue form "userID".toList ≠ [])
    (hfile : FormFile form "uploadFile".toList = none) :
    UploadFileHandler env r = ⟨[Call.WriteHeader 400, Call.Write INVALID_FILE], []⟩ := by
  simp only [UploadFileHandler, hmethod, hparse, huser, hfile, if_false,
    List.length_eq_zero]
  rfl

theorem UploadFileHandler_too_big (env : UploadEnv) (r : UploadRequest)
    (form : MultipartForm) (file : FilePart)
    (hmethod : r.Method ≠ "GET".toList) (hparse : ParseMultipartForm r = some form)
    (huser : FormValue form "userID".toList ≠ [])
    (hfile : FormFile form "uploadFile".toList = some file)
    (hsize : file.Size > maxUploadSize) :
    UploadFileHandler env r = ⟨[Call.WriteHeader 400, Call.Write FILE_TOO_BIG], []⟩ := by
  simp only [UploadFileHandler, hmethod, hparse, huser, hfile, hsize, if_false, if_true,
    List.length_eq_zero]
  rfl

theorem UploadFileHandler_read_error (env : UploadEnv) (r : UploadRequest)
    (form : MultipartForm) (file : FilePart)
    (hmethod : r.Method ≠ "GET".toList) (hparse : ParseMultipartForm r = some form)
    (huser : FormValue form "userID".toList ≠ [])
    (hfile : FormFile form "uploadFile".toList = some file)
    (hsize : ¬ file.Size > maxUploadSize)
    (hread : file.ReadAll = none) :
    UploadFileHandler env r = ⟨[Call.WriteHeader 400, Call.Write INVALID_FILE], []⟩ := by
  simp only [UploadFileHandler, hmethod, hparse, huser, hfile, hsize, hread, if_false,
    List.length_eq_zero]
  rfl

theorem UploadFileHandler_bad_type (env : UploadEnv) (r : UploadRequest)
    (form : MultipartForm) (file : FilePart) (fileBytes : Bytes)
    (hmethod : r.Method ≠ "GET".toList) (hparse : ParseMultipartForm r = some form)
    (huser : FormValue form "userID".toList ≠ [])
    (hfile : FormFile form "uploadFile".toList = some file)
    (hsize : ¬ file.Size > maxUploadSize)
    (hread : file.ReadAll = some fileBytes)
    (htype : ¬ (env.DetectContentType fileBytes = "image/jpeg".toList
      ∨ env.DetectContentType fileBytes = "image/jpg".toList)) :
    UploadFileHandler env r
      = ⟨[Call.WriteHeader 400, Call.Write INVALID_FILE_TYPE], []⟩ := by
  simp only [UploadFileHandler, hmethod, hparse, huser, hfile, hsize, hread, htype,
    if_false, List.length_eq_zero]
  rfl

theorem UploadFileHandler_jpeg (env : UploadEnv) (r : UploadRequest)
    (form : MultipartForm) (file : FilePart) (fileBytes : Bytes)
    (hmethod : r.Method ≠ "GET".toList) (hparse : ParseMultipartForm r = some form)
    (huser : FormValue form "userID".toList ≠ [])
    (hfile : FormFile form "uploadFile".toList = some file)
    (hsize : ¬ file.Size > maxUploadSize)
    (hread : file.ReadAll = some fileBytes)
    (htype : env.DetectContentType fileBytes = "image/jpeg".toList
      ∨ env.DetectContentType fileBytes = "image/jpg".toList) :
    UploadFileHandler env r
      = (let folderPath := Join [uploadPath, FormValue form "userID".toList]
         let imagePath := Join [folderPath, env.uuid ++ ".jpg".toList]
         let mk := FsCall.MkdirAll folderPath 0o700
         if env.createErr imagePath then
           ⟨[Call.WriteHeader 500, Call.Write CANT_WRITE_FILE], [mk]⟩
         else if env.writeErr imagePath then
           ⟨[Call.WriteHeader 500, Call.Write CANT_WRITE_FILE],
             [mk, FsCall.Create imagePath, FsCall.WriteFailed imagePath,
               FsCall.Close imagePath]⟩
         else if env.closeErr imagePath then
           ⟨[Call.WriteHeader 500, Call.Write CANT_WRITE_FILE],
             [mk, FsCall.Create imagePath, FsCall.Write imagePath fileBytes,
               FsCall.Close imagePath]⟩
         else
           ⟨[Call.Write env.uuid],
             [mk, FsCall.Create imagePath, FsCall.Write imagePath fileBytes,
               FsCall.Close imagePath]⟩) := by
  simp only [UploadFileHandler, hmethod, hparse, huser, hfile, hsize, hread, htype,
    if_false, if_true, List.length_eq_zero]
  rfl

/-! ## Upload: order of the checks -/

/-- Claim C10: for a request that is not a GET, the response of the upload handler is
decided by the first failing step in the order form parse, userID, file part, declared
size, payload read, content type, write.  An empty userID gives 400
`MISSING_OR_INVALID_USERID` whatever the file part is, a missing part gives 400
`INVALID_FILE`, a declared size over 512 KiB gives 400 `FILE_TOO_BIG` whatever the content,
and in every failure before the write step no file-system call is made.  In the write step
a failing `os.Create`, `Write` or `Close` on the image path, in this order, gives 500
`CANT_WRITE_FILE`, and only when all three succeed is the fileID written as the body. -/
theorem upload_first_failing_step (env : UploadEnv) (r : UploadRequest)
    (hmethod : r.Method ≠ "GET".toList) :
    (ParseMultipartForm r = none →
      UploadFileHandler env r = ⟨[Call.WriteHeader 500, Call.Write CANT_PARSE_FORM], []⟩) ∧
    (∀ form, ParseMultipartForm r = some form →
      (FormValue form "userID".toList = [] →
        UploadFileHandler env r
          = ⟨[Call.WriteHeader 400, Call.Write MISSING_OR_INVALID_USERID], []⟩) ∧
      (FormValue form "userID".toList ≠ [] →
        (FormFile form "uploadFile".toList = none →
          UploadFileHandler env r = ⟨[Call.WriteHeader 400, Call.Write INVALID_FILE], []⟩) ∧
        (∀ file, FormFile form "uploadFile".toList = some file →
          (file.Size > 512 * 1024 →
            UploadFileHandler env r
              = ⟨[Call.WriteHeader 400, Call.Write FILE_TOO_BIG], []⟩) ∧
          (file.Size ≤ 512 * 1024 →
            (file.ReadAll = none →
              UploadFileHandler env r
                = ⟨[Call.WriteHeader 400, Call.Write INVALID_FILE], []⟩) ∧
            (∀ fileBytes, file.ReadAll = some fileBytes →
              (env.DetectContentType fileBytes ≠ "image/jpeg".toList →
                env.DetectContentType fileBytes ≠ "image/jpg".toList →
                UploadFileHandler env r
                  = ⟨[Call.WriteHeader 400, Call.Write INVALID_FILE_TYPE], []⟩) ∧
              ((env.DetectContentType fileBytes = "image/jpeg".toList
                  ∨ env.DetectContentType fileBytes = "image/jpg".toList) →
                ∀ folderPath imagePath : Str,
                  folderPath = Join [uploadPath, FormValue form "userID".toList] →
                  imagePath = Join [folderPath, env.uuid ++ ".jpg".toList] →
                  (env.createErr imagePath = true →
                    UploadFileHandler env r
                      = ⟨[Call.WriteHeader 500, Call.Write CANT_WRITE_FILE],
                          [FsCall.MkdirAll folderPath 0o700]⟩) ∧
                  (env.createErr imagePath = false → env.writeErr imagePath = true →
                    UploadFileHandler env r
                      = ⟨[Call.WriteHeader 500, Call.Write CANT_WRITE_FILE],
                          [FsCall.MkdirAll folderPath 0o700, FsCall.Create imagePath,
                            FsCall.WriteFailed imagePath, FsCall.Close imagePath]⟩) ∧
                  (env.createErr imagePath = false → env.writeErr imagePath = false →
                    env.closeErr imagePath = true →
                    UploadFileHandler env r
                      = ⟨[Call.WriteHeader 500, Call.Write CANT_WRITE_FILE],
                          [FsCall.MkdirAll folderPath 0o700, FsCall.Create imagePath,
                            FsCall.Write imagePath fileBytes, FsCall.Close imagePath]⟩) ∧
                  (env.createErr imagePath = false → env.writeErr imagePath = false →
                    env.closeErr imagePath = false →
                    UploadFileHandler env r
                      = ⟨[Call.Write env.uuid],
                          [FsCall.MkdirAll folderPath 0o700, FsCall.Create imagePath,
                            FsCall.Write imagePath fileBytes,
                            FsCall.Close imagePath]⟩))))))) := by
  refine ⟨UploadFileHandler_parse_error env r hmethod, fun form hparse => ⟨?_, ?_⟩⟩
  · exact UploadFileHandler_empty_userID env r form hmethod hparse
  · intro huser
    refine ⟨UploadFileHandler_no_file env r form hmethod hparse huser,
      fun file hfile => ⟨?_, ?_⟩⟩
    · intro hsize
      exact UploadFileHandler_too_big env r form file hmethod hparse huser hfile hsize
    · intro hsize
      have hsize' : ¬ file.Size > maxUploadSize := Nat.not_lt.mpr hsize
      refine ⟨UploadFileHandler_read_error env r form file hmethod hparse huser hfile hsize',
        fun fileBytes hread => ⟨?_, ?_⟩⟩
      · intro h1 h2
        exact UploadFileHandler_bad_type env r form file fileBytes hmethod hparse huser
          hfile hsize' hread (fun h => h.elim h1 h2)
      · intro hjpeg folderPath imagePath hfolder himage
        have h := UploadFileHandler_jpeg env r form file fileBytes hmethod hparse huser
          hfile hsize' hread hjpeg
        dsimp only at h
        rw [← hfolder, ← himage] at h
        refine ⟨?_, ?_, ?_, ?_⟩
        · intro hc
          rw [h, if_pos hc]
        · intro hc hw
          rw [h, if_neg (by simp [hc]), if_pos hw]
        · intro hc hw hcl
          rw [h, if_neg (by simp [hc]), if_neg (by simp [hw]), if_pos hcl]
        · intro hc hw hcl
          rw [h, if_neg (by simp [hc]), if_neg (by simp [hw]), if_neg (by simp [hcl])]

/-- Claim C10 at four requests: an empty userID with a PNG part, a userID without a
file part, a part of 512 KiB + 1 byte, and a JPEG whose file cannot be created. -/
theorem upload_first_failing_step_witness :
    UploadFileHandler uploadEnvOk
        (postRequest 400 [] (filePartOf "x.png".toList pngBytes))
      = ⟨[Call.WriteHeader 400, Call.Write MISSING_OR_INVALID_USERID], []⟩ ∧
    UploadFileHandler uploadEnvOk
        ⟨"POST".toList, 200, some ⟨[("userID".toList, ["a1bc".toList])], []⟩⟩
      = ⟨[Call.WriteHeader 400, Call.Write INVALID_FILE], []⟩ ∧
    UploadFileHandler uploadEnvOk (postRequest 524600 "a1bc".toList bigPart)
      = ⟨[Call.WriteHeader 400, Call.Write FILE_TOO_BIG], []⟩ ∧
    UploadFileHandler uploadEnvCreateFails
        (postRequest 600 "a1bc".toList (filePartOf "valid_image.jpg".toList jpegBytes))
      = ⟨[Call.WriteHeader 500, Call.Write CANT_WRITE_FILE],
          [FsCall.MkdirAll (Join [uploadPath, "a1bc".toList]) 0o700]⟩ :=
  ⟨((upload_first_failing_step uploadEnvOk
      (postRequest 400 [] (filePartOf "x.png".toList pngBytes)) (by decide)).2
      _ rfl).1 rfl,
   (((upload_first_failing_step uploadEnvOk
      ⟨"POST".toList, 200, some ⟨[("userID".toList, ["a1bc".toList])], []⟩⟩
      (by decide)).2 _ rfl).2 (by decide)).1 rfl,
   ((((upload_first_failing_step uploadEnvOk (postRequest 524600 "a1bc".toList bigPart)
      (by decide)).2 _ rfl).2 (by decide)).2 bigPart rfl).1 (by decide),
   (((((((upload_first_failing_step uploadEnvCreateFails
      (postRequest 600 "a1bc".toList (filePartOf "valid_image.jpg".toList jpegBytes))
      (by decide)).2 _ rfl).2 (by decide)).2
      (filePartOf "valid_image.jpg".toList jpegBytes) rfl).2 (by decide)).2
      jpegBytes rfl).2 (Or.inl (by decide))
      (Join [uploadPath, "a1bc".toList])
      (Join [Join [uploadPath, "a1bc".toList], exampleUUID ++ ".jpg".toList])
      rfl rfl).1 rfl⟩

/-! ## Upload: content type -/

/-- Claim C5: for a request that parses, has a non-empty userID and an `uploadFile` part
of at most 512 KiB whose payload is read, the handler answers 400 `INVALID_FILE_TYPE` and
makes no file-system call exactly when the type sniffed from the payload bytes is neither
`image/jpeg` nor `image/jpg`; the declared type and the file name of the part play no
role. -/
theorem upload_rejects_non_jpeg_bytes (env : UploadEnv) (r : UploadRequest)
    (form : MultipartForm) (file : FilePart) (fileBytes : Bytes)
    (hmethod : r.Method ≠ "GET".toList)
    (hparse : ParseMultipartForm r = some form)
    (huser : FormValue form "userID".toList ≠ [])
    (hfile : FormFile form "uploadFile".toList = some file)
    (hsize : file.Size ≤ 512 * 1024)
    (hread : file.ReadAll = some fileBytes) :
    UploadFileHandler env r = ⟨[Call.WriteHeader 400, Call.Write INVALID_FILE_TYPE], []⟩
      ↔ (env.DetectContentType fileBytes ≠ "image/jpeg".toList
          ∧ env.DetectContentType fileBytes ≠ "image/jpg".toList) := by
  have hsize' : ¬ file.Size > maxUploadSize := Nat.not_lt.mpr hsize
  constructor
  · intro h
    by_contra hc
    have hjpeg : env.DetectContentType fileBytes = "image/jpeg".toList
        ∨ env.DetectContentType fileBytes = "image/jpg".toList := by
      by_contra hn
      exact hc ⟨fun h1 => hn (Or.inl h1), fun h2 => hn (Or.inr h2)⟩
    rw [UploadFileHandler_jpeg env r form file fileBytes hmethod hparse huser hfile
      hsize' hread hjpeg] at h
    dsimp only at h
    have hresp := congrArg UploadResult.resp h
    split_ifs at hresp <;> simp at hresp
  · rintro ⟨h1, h2⟩
    exact UploadFileHandler_bad_type env r form file fileBytes hmethod hparse huser
      hfile hsize' hread (fun h => h.elim h1 h2)

/-- Claim C5 at a PNG payload sent under the name `receipt.jpg` with the declared type
`image/jpeg`. -/
theorem upload_rejects_non_jpeg_bytes_witness :
    UploadFileHandler uploadEnvOk
        (postRequest 400 "a1bc".toList (filePartOf "receipt.jpg".toList pngBytes))
      = ⟨[Call.WriteHeader 400, Call.Write INVALID_FILE_TYPE], []⟩ :=
  (upload_rejects_non_jpeg_bytes uploadEnvOk
    (postRequest 400 "a1bc".toList (filePartOf "receipt.jpg".toList pngBytes))
    _ (filePartOf "receipt.jpg".toList pngBytes) pngBytes
    (by decide) rfl (by decide) rfl (by decide) rfl).2 ⟨by decide, by decide⟩

/-! ## Upload: size limits -/

/-- Claim C4 as stated fails on a part larger than the 1 MiB limit on the body: the
request has the userID `a1bc` and a part of 1 MiB + 1 byte, the form cannot be parsed, and
the response is 500 `CANT_PARSE_FORM`, not 400 `FILE_TOO_BIG`. -/
theorem upload_part_over_body_limit :
    FormValue ⟨[("userID".toList, ["a1bc".toList])], [("uploadFile".toList, [hugePart])]⟩
        "userID".toList ≠ [] ∧
    hugePart.Size > 512 * 1024 ∧
    hugePart.Size ≤ (postRequest 1048900 "a1bc".toList hugePart).bodyLen ∧
    UploadFileHandler uploadEnvOk (postRequest 1048900 "a1bc".toList hugePart)
      = ⟨[Call.WriteHeader 500, Call.Write CANT_PARSE_FORM], []⟩ ∧
    UploadFileHandler uploadEnvOk (postRequest 1048900 "a1bc".toList hugePart)
      ≠ ⟨[Call.WriteHeader 400, Call.Write FILE_TOO_BIG], []⟩ := by
  refine ⟨by decide, by decide, by decide, by decide, by decide⟩

/-- Claim C4, amended: for a request that is not a GET, a body longer than the 1 MiB
limit gives 500 `CANT_PARSE_FORM`; when the form parses, the userID is not empty and the
`uploadFile` part is larger than 512 KiB, the response is 400 `FILE_TOO_BIG`; no
file-system call is made in either case. -/
theorem upload_oversized_part (env : UploadEnv) (r : UploadRequest)
    (hmethod : r.Method ≠ "GET".toList) :
    (r.bodyLen > 2 * 512 * 1024 →
      UploadFileHandler env r = ⟨[Call.WriteHeader 500, Call.Write CANT_PARSE_FORM], []⟩) ∧
    (∀ form file, r.bodyLen ≤ 2 * 512 * 1024 → r.form = some form →
      FormValue form "userID".toList ≠ [] →
      FormFile form "uploadFile".toList = some file →
      file.Size > 512 * 1024 →
      UploadFileHandler env r = ⟨[Call.WriteHeader 400, Call.Write FILE_TOO_BIG], []⟩) := by
  refine ⟨?_, ?_⟩
  · intro hlen
    have hlen' : r.bodyLen > maxBodySize := hlen
    exact UploadFileHandler_parse_error env r hmethod (by simp [ParseMultipartForm, hlen'])
  · intro form file hlen hform huser hfile hsize
    have hlen' : ¬ r.bodyLen > maxBodySize := Nat.not_lt.mpr hlen
    exact UploadFileHandler_too_big env r form file hmethod
      (by simp [ParseMultipartForm, hlen', hform]) huser hfile hsize

/-- Claim C4, amended, at a part of 512 KiB + 1 byte in a body of 524600 bytes. -/
theorem upload_oversized_part_witness :
    UploadFileHandler uploadEnvOk (postRequest 524600 "a1bc".toList bigPart)
      = ⟨[Call.WriteHeader 400, Call.Write FILE_TOO_BIG], []⟩ :=
  (upload_oversized_part uploadEnvOk (postRequest 524600 "a1bc".toList bigPart)
    (by decide)).2 _ bigPart (by decide) rfl (by decide) rfl (by decide)

/-! ## Upload: success -/

/-- After the calls of a successful upload on any disk, the file at the path holds
the data. -/
theorem Disk.run_create_write (d : Disk) (folder path : Str) (perm : Nat) (data : Bytes) :
    (Disk.run d [FsCall.MkdirAll folder perm, FsCall.Create path, FsCall.Write path data,
      FsCall.Close path]).lookup path = some data := by
  simp [Disk.run, Disk.step, List.lookup]

/-- Claim C6 as stated fails in two ways: a valid JPEG of 159 bytes with the userID `a1bc`
in a form that has one more field of 1 MiB, so that the body is longer than 1 MiB, gets
500 `CANT_PARSE_FORM`, and the same upload in a body of 600 bytes gets 500
`CANT_WRITE_FILE` when `os.Create` fails. -/
theorem upload_valid_jpeg_not_always_200 :
    jpegBytes.length ≤ 512 * 1024 ∧
    UploadFileHandler uploadEnvOk
        (paddedRequest "a1bc".toList (filePartOf "valid_image.jpg".toList jpegBytes))
      = ⟨[Call.WriteHeader 500, Call.Write CANT_PARSE_FORM], []⟩ ∧
    (UploadFileHandler uploadEnvCreateFails
        (postRequest 600 "a1bc".toList (filePartOf "valid_image.jpg".toList jpegBytes))).resp
      = [Call.WriteHeader 500, Call.Write CANT_WRITE_FILE] ∧
    statusOf (UploadFileHandler uploadEnvCreateFails
        (postRequest 600 "a1bc".toList (filePartOf "valid_image.jpg".toList jpegBytes))).resp
      ≠ 200 := by
  refine ⟨by decide, by decide, by decide, by decide⟩

/-- Claim C6, amended: when the form parses, the userID is not empty, the `uploadFile`
part is at most 512 KiB, its payload is read and sniffed as `image/jpeg` (or `image/jpg`),
and creating, writing and closing the file succeed, the response has status 200 and its
body is exactly the generated fileID, and on any disk the file at
`filepath.Join(filepath.Join(root, userID), fileID + ".jpg")` then holds exactly the
uploaded bytes. -/
theorem upload_jpeg_stored (env : UploadEnv) (r : UploadRequest)
    (form : MultipartForm) (file : FilePart) (fileBytes : Bytes) (disk : Disk)
    (hmethod : r.Method ≠ "GET".toList)
    (hparse : ParseMultipartForm r = some form)
    (huser : FormValue form "userID".toList ≠ [])
    (hfile : FormFile form "uploadFile".toList = some file)
    (hsize : file.Size ≤ 512 * 1024)
    (hread : file.ReadAll = some fileBytes)
    (hjpeg : env.DetectContentType fileBytes = "image/jpeg".toList
      ∨ env.DetectContentType fileBytes = "image/jpg".toList)
    (hcreate : env.createErr (Join [Join [uploadPath, FormValue form "userID".toList],
      env.uuid ++ ".jpg".toList]) = false)
    (hwrite : env.writeErr (Join [Join [uploadPath, FormValue form "userID".toList],
      env.uuid ++ ".jpg".toList]) = false)
    (hclose : env.closeErr (Join [Join [uploadPath, FormValue form "userID".toList],
      env.uuid ++ ".jpg".toList]) = false) :
    (UploadFileHandler env r).resp = [Call.Write env.uuid] ∧
    statusOf (UploadFileHandler env r).resp = 200 ∧
    bodyOf (UploadFileHandler env r).resp = env.uuid ∧
    (Disk.run disk (UploadFileHandler env r).fs).lookup
        (Join [Join [uploadPath, FormValue form "userID".toList], env.uuid ++ ".jpg".toList])
      = some fileBytes := by
  have hsize' : ¬ file.Size > maxUploadSize := Nat.not_lt.mpr hsize
  have h := UploadFileHandler_jpeg env r form file fileBytes hmethod hparse huser hfile
    hsize' hread hjpeg
  simp only [hcreate, hwrite, hclose, Bool.false_eq_true, if_false] at h
  rw [h]
  refine ⟨rfl, rfl, ?_, Disk.run_create_write disk _ _ _ fileBytes⟩
  simp [bodyOf]

/-- Claim C6, amended, at the upload of `jpegBytes` by the user `a1bc` on an empty disk. -/
theorem upload_jpeg_stored_witness :
    (UploadFileHandler uploadEnvOk
        (postRequest 600 "a1bc".toList
          (filePartOf "valid_image.jpg".toList jpegBytes))).resp
      = [Call.Write exampleUUID] ∧
    (Disk.run [] (UploadFileHandler uploadEnvOk
        (postRequest 600 "a1bc".toList
          (filePartOf "valid_image.jpg".toList jpegBytes))).fs).lookup
        "receipts/a1bc/2b72ad28-9ce9-4e3e-b9f9-2af537ae0d4f.jpg".toList
      = some jpegBytes :=
  have h := upload_jpeg_stored uploadEnvOk
    (postRequest 600 "a1bc".toList (filePartOf "valid_image.jpg".toList jpegBytes))
    _ (filePartOf "valid_image.jpg".toList jpegBytes) jpegBytes []
    (by decide) rfl (by decide) rfl (by decide) rfl (Or.inl (by decide)) rfl rfl rfl
  ⟨h.1, h.2.2.2⟩

/-! ## `parseScale` -/

theorem parseUserID_error (query : Values) (err : Str)
    (h : parseUserID query = .error err) : err = MISSING_OR_INVALID_USERID := by
  unfold parseUserID at h
  split at h <;> first | (injection h with h; exact h.symm) | (exact absurd h (by simp))

theorem parseFileName_error (query : Values) (err : Str)
    (h : parseFileName query = .error err) : err = MISSING_OR_INVALID_FILENAME := by
  unfold parseFileName at h
  split at h <;> first | (injection h with h; exact h.symm) | (exact absurd h (by simp))

/-- Claim C2, at the failing input `?scale=NaN`: `strconv.ParseFloat` returns NaN without
an error for the string `NaN`, both comparisons of the range check are false on NaN, and so
`parseScale` returns NaN without an error and the handler does not answer 400
`MISSING_OR_INVALID_SCALE`, whatever the other parameters are. -/
theorem parseScale_accepts_NaN (env : DownloadEnv) (more : List Str) (rest : Values)
    (hnan : env.ParseFloat "NaN".toList = some F64.nan) :
    parseScale env (("scale".toList, "NaN".toList :: more) :: rest) = .ok F64.nan ∧
    DownloadFileHandler env (("scale".toList, "NaN".toList :: more) :: rest)
      ≠ [Call.WriteHeader 400, Call.Write MISSING_OR_INVALID_SCALE] := by
  have hscale : parseScale env (("scale".toList, "NaN".toList :: more) :: rest)
      = .ok F64.nan := by
    have hl : List.lookup "scale".toList (("scale".toList, "NaN".toList :: more) :: rest)
        = some ("NaN".toList :: more) := by
      simp [List.lookup]
    unfold parseScale
    rw [hl]
    dsimp only
    rw [hnan]
    rfl
  refine ⟨hscale, ?_⟩
  unfold DownloadFileHandler
  rw [hscale]
  dsimp only
  split
  · rename_i err herr
    rw [parseUserID_error _ _ herr]
    decide
  · split
    · rename_i err herr
      rw [parseFileName_error _ _ herr]
      decide
    · split_ifs
      · decide
      · split <;> simp [generateError]

/-- Claim C2 at the request `?scale=NaN&userid=a1bc&filename=F.jpg` for a stored image:
the scale is accepted and the handler goes on to encode an image. -/
theorem parseScale_accepts_NaN_witness :
    parseScale downloadEnvImage
        (downloadQuery "NaN".toList "a1bc".toList "F.jpg".toList) = .ok F64.nan ∧
    statusOf (DownloadFileHandler downloadEnvImage
        (downloadQuery "NaN".toList "a1bc".toList "F.jpg".toList)) = 200 :=
  ⟨(parseScale_accepts_NaN downloadEnvImage []
      [("userid".toList, ["a1bc".toList]), ("filename".toList, ["F.jpg".toList])] rfl).1,
    by decide⟩

/-! ## `path/filepath`: paths without `..` -/

theorem splitSlash_ne_nil (s : Str) : splitSlash s ≠ [] := by
  cases s with
  | nil => simp [splitSlash]
  | cons c cs =>
    unfold splitSlash
    split_ifs
    · simp
    · split <;> simp

theorem splitSlash_append_slash (a b : Str) :
    splitSlash (a ++ '/' :: b) = splitSlash a ++ splitSlash b := by
  induction a with
  | nil => simp [splitSlash]
  | cons c a ih =>
    by_cases hc : c = '/'
    · simp [splitSlash, hc, ih]
    · have hne := splitSlash_ne_nil a
      cases hsp : splitSlash a with
      | nil => exact absurd hsp hne
      | cons x xs =>
        simp [splitSlash, hc, ih, hsp]

theorem splitSlash_no_slash (s : Str) : ∀ e ∈ splitSlash s, '/' ∉ e := by
  induction s with
  | nil => simp [splitSlash]
  | cons c cs ih =>
    by_cases hc : c = '/'
    · intro e he
      simp only [splitSlash, hc, if_true, List.mem_cons] at he
      rcases he with he | he
      · simp [he]
      · exact ih e he
    · cases hsp : splitSlash cs with
      | nil => exact absurd hsp (splitSlash_ne_nil cs)
      | cons x xs =>
        intro e he
        rw [hsp] at ih
        simp only [splitSlash, hc, if_false, hsp, List.mem_cons] at he
        rcases he with he | he
        · subst he
          have hx := ih x (List.mem_cons_self _ _)
          simp only [List.mem_cons, not_or]
          exact ⟨fun h => hc h.symm, hx⟩
        · exact ih e (List.mem_cons_of_mem _ he)

theorem splitSlash_of_no_slash (s : Str) (h : '/' ∉ s) : splitSlash s = [s] := by
  induction s with
  | nil => simp [splitSlash]
  | cons c cs ih =>
    simp only [List.mem_cons, not_or] at h
    have hc : c ≠ '/' := fun hc => h.1 hc.symm
    simp [splitSlash, hc, ih h.2]

theorem splitSlash_joinSlash (es : List Str) (hne : es ≠ [])
    (hes : ∀ e ∈ es, '/' ∉ e) : splitSlash (joinSlash es) = es := by
  induction es with
  | nil => exact absurd rfl hne
  | cons e es ih =>
    cases es with
    | nil => simpa [joinSlash] using splitSlash_of_no_slash e (hes e (List.mem_cons_self _ _))
    | cons e' es' =>
      have h1 := splitSlash_of_no_slash e (hes e (List.mem_cons_self _ _))
      have h2 := ih (by simp) (fun x hx => hes x (List.mem_cons_of_mem _ hx))
      simp only [joinSlash]
      rw [splitSlash_append_slash, h1, h2]
      rfl

/-- Elements none of which is `..` are only pushed on the stack. -/
theorem foldl_cleanStep_noDotDot (rooted : Bool) (elems stack : List Str)
    (h : ['.', '.'] ∉ elems) :
    ∃ extra : List Str, elems.foldl (cleanStep rooted) stack = extra ++ stack ∧
      ∀ x ∈ extra, x ∈ elems := by
  induction elems generalizing stack with
  | nil => exact ⟨[], rfl, by simp⟩
  | cons e es ih =>
    simp only [List.mem_cons, not_or] at h
    have he : e ≠ ['.', '.'] := fun hc => h.1 hc.symm
    obtain ⟨extra, hfold, hmem⟩ := ih (cleanStep rooted stack e) h.2
    by_cases h1 : e = []
    · refine ⟨extra, ?_, fun x hx => List.mem_cons_of_mem _ (hmem x hx)⟩
      simpa [cleanStep, h1] using hfold
    · by_cases h2 : e = ['.']
      · refine ⟨extra, ?_, fun x hx => List.mem_cons_of_mem _ (hmem x hx)⟩
        simpa [cleanStep, h2] using hfold
      · refine ⟨extra ++ [e], ?_, ?_⟩
        · simpa [cleanStep, h1, h2, he] using hfold
        · intro x hx
          rcases List.mem_append.mp hx with hx | hx
          · exact List.mem_cons_of_mem _ (hmem x hx)
          · simp only [List.mem_singleton] at hx
            simp [hx]

theorem storageRoot_eq : storageRoot = "receipts".toList := by decide

theorem insideRoot_joinSlash (xs : List Str) :
    insideRoot (joinSlash (storageRoot :: xs)) := by
  cases xs with
  | nil => exact Or.inl rfl
  | cons y ys =>
    refine Or.inr ?_
    simp only [joinSlash]
    exact ⟨joinSlash (y :: ys), by simp⟩

/-- A relative path whose elements start with elements that clean to the root and go on
without any `..` cleans to the root followed by elements of the rest. -/
theorem Clean_below_root (p : Str) (pre rest : List Str)
    (hp : p ≠ []) (hhead : p.head? ≠ some '/')
    (hsplit : splitSlash p = pre ++ rest)
    (hpre : pre.foldl (cleanStep false) [] = [storageRoot])
    (hrest : ['.', '.'] ∉ rest) :
    ∃ xs : List Str, Clean p = joinSlash (storageRoot :: xs) ∧ ∀ x ∈ xs, x ∈ rest := by
  obtain ⟨extra, hfold, hmem⟩ := foldl_cleanStep_noDotDot false rest [storageRoot] hrest
  refine ⟨extra.reverse, ?_, fun x hx => hmem x (List.mem_reverse.mp hx)⟩
  have hout : cleanElems false (splitSlash p) = storageRoot :: extra.reverse := by
    unfold cleanElems
    rw [hsplit, List.foldl_append, hpre, hfold]
    simp
  have hh : (p.head? = some '/') = False := eq_false hhead
  simp only [Clean, hp, if_false, hh, decide_False, hout]
  simp

theorem splitSlash_uploadPath : splitSlash uploadPath = [['.'], storageRoot] := by decide

theorem foldl_uploadPath :
    [['.'], storageRoot].foldl (cleanStep false) [] = [storageRoot] := by decide

theorem storageRoot_no_slash : '/' ∉ storageRoot := by decide

/-- The folder path of an upload, for a userID without `..` elements. -/
theorem folderPath_below_root (userID : Str) (huser : noDotDot userID) :
    ∃ xs : List Str, Join [uploadPath, userID] = joinSlash (storageRoot :: xs) ∧
      ∀ x ∈ xs, x ∈ splitSlash userID := by
  have hj : Join [uploadPath, userID] = Clean (uploadPath ++ '/' :: userID) := by
    simp [Join, joinSlash, uploadPath]
  rw [hj]
  exact Clean_below_root _ [['.'], storageRoot] (splitSlash userID)
    (by simp [uploadPath]) (by simp [uploadPath])
    (by rw [splitSlash_append_slash, splitSlash_uploadPath]) foldl_uploadPath huser

/-- The path of a download, for a userid and a filename without `..` elements. -/
theorem downloadPath_below_root (userID fileName : Str)
    (huser : noDotDot userID) (hfile : noDotDot fileName) :
    ∃ xs : List Str, Join [uploadPath, userID, fileName] = joinSlash (storageRoot :: xs) := by
  have hj : Join [uploadPath, userID, fileName]
      = Clean (uploadPath ++ '/' :: (userID ++ '/' :: fileName)) := by
    simp [Join, joinSlash, uploadPath]
  rw [hj]
  obtain ⟨xs, h, _⟩ := Clean_below_root (uploadPath ++ '/' :: (userID ++ '/' :: fileName))
    [['.'], storageRoot] (splitSlash userID ++ splitSlash fileName)
    (by simp [uploadPath]) (by simp [uploadPath])
    (by rw [splitSlash_append_slash, splitSlash_append_slash, splitSlash_uploadPath])
    foldl_uploadPath
    (by
      intro hmem
      rcases List.mem_append.mp hmem with h | h
      · exact huser h
      · exact hfile h)
  exact ⟨xs, h⟩

theorem joinSlash_root_ne_nil (xs : List Str) : joinSlash (storageRoot :: xs) ≠ [] := by
  cases xs with
  | nil => simp [joinSlash, storageRoot_eq]
  | cons y ys => simp [joinSlash, storageRoot_eq]

theorem joinSlash_root_head (xs : List Str) :
    (joinSlash (storageRoot :: xs)).head? ≠ some '/' := by
  cases xs with
  | nil => simp [joinSlash, storageRoot_eq]
  | cons y ys => simp [joinSlash, storageRoot_eq]

theorem noDotDot_fileID_jpg (fileID : Str) (h : '/' ∉ fileID) :
    noDotDot (fileID ++ ".jpg".toList) := by
  unfold noDotDot
  rw [splitSlash_of_no_slash _ (by simpa using h)]
  simp only [List.mem_singleton]
  intro hc
  have hlen := congrArg List.length hc
  simp at hlen

/-- The image path of an upload, for a userID without `..` elements and a fileID
without separator. -/
theorem imagePath_below_root (userID fileID : Str)
    (huser : noDotDot userID) (hid : '/' ∉ fileID) :
    ∃ xs : List Str, Join [Join [uploadPath, userID], fileID ++ ".jpg".toList]
      = joinSlash (storageRoot :: xs) := by
  obtain ⟨ys, hfolder, hys⟩ := folderPath_below_root userID huser
  rw [hfolder]
  have hj : Join [joinSlash (storageRoot :: ys), fileID ++ ".jpg".toList]
      = Clean (joinSlash (storageRoot :: ys) ++ '/' :: (fileID ++ ".jpg".toList)) := by
    simp [Join, joinSlash, joinSlash_root_ne_nil]
  rw [hj]
  have hsplit : splitSlash (joinSlash (storageRoot :: ys)) = storageRoot :: ys := by
    apply splitSlash_joinSlash _ (by simp)
    intro e he
    rcases List.mem_cons.mp he with he | he
    · rw [he]; exact storageRoot_no_slash
    · exact splitSlash_no_slash userID e (hys e he)
  obtain ⟨xs, h, _⟩ := Clean_below_root
    (joinSlash (storageRoot :: ys) ++ '/' :: (fileID ++ ".jpg".toList))
    [storageRoot] (ys ++ splitSlash (fileID ++ ".jpg".toList))
    (by simp) (by
      have h1 := joinSlash_root_ne_nil ys
      have h2 := joinSlash_root_head ys
      cases hq : joinSlash (storageRoot :: ys) with
      | nil => exact absurd hq h1
      | cons c cs => rw [hq] at h2; simpa using h2)
    (by rw [splitSlash_append_slash, hsplit]; rfl)
    (by decide)
    (by
      intro hmem
      rcases List.mem_append.mp hmem with h | h
      · exact huser (hys _ h)
      · exact noDotDot_fileID_jpg fileID hid h)
  exact ⟨xs, h⟩

theorem UploadFileHandler_get (env : UploadEnv) (r : UploadRequest)
    (hmethod : r.Method = "GET".toList) :
    UploadFileHandler env r = ⟨[Call.Execute "upload.html".toList], []⟩ := by
  simp only [UploadFileHandler, hmethod, if_true]

/-- Every file-system call of the upload handler is on the folder path or on the
image path. -/
theorem UploadFileHandler_fs_path (env : UploadEnv) (r : UploadRequest) (c : FsCall)
    (hc : c ∈ (UploadFileHandler env r).fs) :
    ∃ form, ParseMultipartForm r = some form ∧
      (c.path = Join [uploadPath, FormValue form "userID".toList] ∨
       c.path = Join [Join [uploadPath, FormValue form "userID".toList],
          env.uuid ++ ".jpg".toList]) := by
  by_cases hmethod : r.Method = "GET".toList
  · rw [UploadFileHandler_get env r hmethod] at hc
    simp at hc
  cases hparse : ParseMultipartForm r with
  | none =>
    rw [UploadFileHandler_parse_error env r hmethod hparse] at hc
    simp at hc
  | some form =>
    refine ⟨form, rfl, ?_⟩
    by_cases huser : FormValue form "userID".toList = []
    · rw [UploadFileHandler_empty_userID env r form hmethod hparse huser] at hc
      simp at hc
    cases hfile : FormFile form "uploadFile".toList with
    | none =>
      rw [UploadFileHandler_no_file env r form hmethod hparse huser hfile] at hc
      simp at hc
    | some file =>
      by_cases hsize : file.Size > maxUploadSize
      · rw [UploadFileHandler_too_big env r form file hmethod hparse huser hfile hsize] at hc
        simp at hc
      cases hread : file.ReadAll with
      | none =>
        rw [UploadFileHandler_read_error env r form file hmethod hparse huser hfile hsize
          hread] at hc
        simp at hc
      | some fileBytes =>
        by_cases htype : env.DetectContentType fileBytes = "image/jpeg".toList
            ∨ env.DetectContentType fileBytes = "image/jpg".toList
        · rw [UploadFileHandler_jpeg env r form file fileBytes hmethod hparse huser hfile
            hsize hread htype] at hc
          dsimp only at hc
          split_ifs at hc <;>
            simp only [List.mem_cons, List.mem_singleton, List.not_mem_nil, or_false] at hc
          · subst hc; exact Or.inl rfl
          · rcases hc with hc | hc | hc | hc <;> subst hc
            · exact Or.inl rfl
            · exact Or.inr rfl
            · exact Or.inr rfl
            · exact Or.inr rfl
          · rcases hc with hc | hc | hc | hc <;> subst hc
            · exact Or.inl rfl
            · exact Or.inr rfl
            · exact Or.inr rfl
            · exact Or.inr rfl
          · rcases hc with hc | hc | hc | hc <;> subst hc
            · exact Or.inl rfl
            · exact Or.inr rfl
            · exact Or.inr rfl
            · exact Or.inr rfl
        · rw [UploadFileHandler_bad_type env r form file fileBytes hmethod hparse huser
            hfile hsize hread htype] at hc
          simp at hc

theorem parseScale_congr (env env' : DownloadEnv) (h : env.ParseFloat = env'.ParseFloat)
    (query : Values) : parseScale env query = parseScale env' query := by
  simp only [parseScale, h]

theorem resizeImage_congr (env env' : DownloadEnv) (path : Str) (scale : F64)
    (h1 : env.ReadFile path = env'.ReadFile path)
    (h2 : env.DecodeConfig = env'.DecodeConfig) (h3 : env.Decode = env'.Decode)
    (h4 : env.uintImplDep = env'.uintImplDep) :
    resizeImage env path scale = resizeImage env' path scale := by
  simp only [resizeImage, h1, h2, h3, h4]

/-- Claim C1 as stated fails: the upload handler accepts the userID `../x` and creates
the file `x/<fileID>.jpg`, and the download handler accepts the userid `..` and builds the
path `F.jpg`; both paths are outside `receipts`. -/
theorem accepted_userID_escapes_root :
    (UploadFileHandler uploadEnvOk
        (postRequest 600 "../x".toList (filePartOf "valid_image.jpg".toList jpegBytes))).fs
      = [FsCall.MkdirAll "x".toList 0o700,
         FsCall.Create "x/2b72ad28-9ce9-4e3e-b9f9-2af537ae0d4f.jpg".toList,
         FsCall.Write "x/2b72ad28-9ce9-4e3e-b9f9-2af537ae0d4f.jpg".toList jpegBytes,
         FsCall.Close "x/2b72ad28-9ce9-4e3e-b9f9-2af537ae0d4f.jpg".toList] ∧
    ¬ insideRoot "x/2b72ad28-9ce9-4e3e-b9f9-2af537ae0d4f.jpg".toList ∧
    parseUserID (downloadQuery "1.0".toList "..".toList "F.jpg".toList) = .ok "..".toList ∧
    Join [uploadPath, "..".toList, "F.jpg".toList] = "F.jpg".toList ∧
    ¬ insideRoot "F.jpg".toList := by
  refine ⟨by decide, by decide, rfl, by decide, by decide⟩

/-- Claim C1, amended: when no `/`-separated element of the userID (and of the filename) is
`..` and the generated fileID has no separator, the folder path and the image path of the
upload handler and the path of the download handler lie inside the storage root; every
file-system call of an upload is then on a path inside the root, and the response to a
download does not depend on anything `os.Stat` and `ioutil.ReadFile` report outside the
root. -/
theorem paths_inside_root (userID fileName fileID : Str)
    (huser : noDotDot userID) (hfile : noDotDot fileName) (hid : '/' ∉ fileID) :
    insideRoot (Join [uploadPath, userID]) ∧
    insideRoot (Join [Join [uploadPath, userID], fileID ++ ".jpg".toList]) ∧
    insideRoot (Join [uploadPath, userID, fileName]) ∧
    (∀ (env : UploadEnv) (r : UploadRequest) (form : MultipartForm),
      ParseMultipartForm r = some form → FormValue form "userID".toList = userID →
      env.uuid = fileID → ∀ c ∈ (UploadFileHandler env r).fs, insideRoot c.path) ∧
    (∀ (env env' : DownloadEnv) (query : Values),
      parseUserID query = .ok userID → parseFileName query = .ok fileName →
      agreeInsideRoot env env' →
      DownloadFileHandler env query = DownloadFileHandler env' query) := by
  have h1 : insideRoot (Join [uploadPath, userID]) := by
    obtain ⟨xs, h, _⟩ := folderPath_below_root userID huser
    rw [h]; exact insideRoot_joinSlash xs
  have h2 : insideRoot (Join [Join [uploadPath, userID], fileID ++ ".jpg".toList]) := by
    obtain ⟨xs, h⟩ := imagePath_below_root userID fileID huser hid
    rw [h]; exact insideRoot_joinSlash xs
  have h3 : insideRoot (Join [uploadPath, userID, fileName]) := by
    obtain ⟨xs, h⟩ := downloadPath_below_root userID fileName huser hfile
    rw [h]; exact insideRoot_joinSlash xs
  refine ⟨h1, h2, h3, ?_, ?_⟩
  · intro env r form hparse hform huuid c hc
    obtain ⟨form', hparse', hpath⟩ := UploadFileHandler_fs_path env r c hc
    rw [hparse] at hparse'
    cases hparse'
    rw [hform, huuid] at hpath
    rcases hpath with hpath | hpath <;> rw [hpath]
    · exact h1
    · exact h2
  · intro env env' query hu hf hagree
    obtain ⟨hpf, hdc, hd, hi, hfs⟩ := hagree
    obtain ⟨hstat, hread⟩ := hfs _ h3
    unfold DownloadFileHandler
    rw [parseScale_congr env env' hpf query, hu, hf]
    dsimp only
    rw [hstat]
    split
    · rfl
    · rename_i scale _
      rw [resizeImage_congr env env' _ scale hread hdc hd hi]

/-- Claim C1, amended, at the userID `a1bc`, the filename `F.jpg` and the example
fileID. -/
theorem paths_inside_root_witness :
    insideRoot (Join [uploadPath, "a1bc".toList]) ∧
    insideRoot (Join [Join [uploadPath, "a1bc".toList], exampleUUID ++ ".jpg".toList]) ∧
    insideRoot (Join [uploadPath, "a1bc".toList, "F.jpg".toList]) :=
  have h := paths_inside_root "a1bc".toList "F.jpg".toList exampleUUID
    (by decide) (by decide) (by decide)
  ⟨h.1, h.2.1, h.2.2.1⟩

/-! ## `float64`: the width passed to the resampler -/

namespace F64

theorem bitLenAux_spec (fuel n : Nat) (h : n ≤ fuel) :
    n < 2 ^ bitLenAux fuel n ∧ (n ≠ 0 → 2 ^ (bitLenAux fuel n - 1) ≤ n) := by
  induction fuel generalizing n with
  | zero =>
    have : n = 0 := Nat.le_zero.mp h
    subst this
    simp [bitLenAux]
  | succ fuel ih =>
    by_cases hn : n = 0
    · subst hn
      simp [bitLenAux]
    · have hhalf : n / 2 ≤ fuel := by omega
      obtain ⟨h1, h2⟩ := ih (n / 2) hhalf
      simp only [bitLenAux, hn, if_false, Nat.add_sub_cancel]
      refine ⟨?_, fun _ => ?_⟩
      · rw [pow_succ]
        omega
      · by_cases hz : n / 2 = 0
        · have : bitLenAux fuel (n / 2) = 0 := by
            cases fuel with
            | zero => rfl
            | succ f => simp [bitLenAux, hz]
          rw [this]
          simp
          omega
        · have h3 := h2 hz
          have hpos : 0 < bitLenAux fuel (n / 2) := by
            by_contra hc
            have : bitLenAux fuel (n / 2) = 0 := by omega
            rw [this] at h1
            simp at h1
            exact hz h1
          have : bitLenAux fuel (n / 2) = (bitLenAux fuel (n / 2) - 1) + 1 := by omega
          rw [this, pow_succ]
          omega

theorem lt_two_pow_bitLen (n : Nat) : n < 2 ^ bitLen n :=
  (bitLenAux_spec n n le_rfl).1

theorem two_pow_bitLen_le (n : Nat) (hn : n ≠ 0) : 2 ^ (bitLen n - 1) ≤ n :=
  (bitLenAux_spec n n le_rfl).2 hn

theorem bitLen_le_of_lt (n t : Nat) (h : n < 2 ^ t) : bitLen n ≤ t := by
  by_contra hc
  have hn : n ≠ 0 := by
    intro h0
    subst h0
    simp [bitLen, bitLenAux] at hc
  have h1 := two_pow_bitLen_le n hn
  have h2 : 2 ^ t ≤ 2 ^ (bitLen n - 1) := Nat.pow_le_pow_right (by norm_num) (by omega)
  omega

/-- The rounded quotient is the quotient or one more, and one more only from the
half on. -/
theorem rneShift_spec (n k : Nat) :
    rneShift n k = n / 2 ^ k ∨
      (rneShift n k = n / 2 ^ k + 1 ∧ 0 < k ∧ 2 ^ (k - 1) ≤ n % 2 ^ k) := by
  unfold rneShift
  by_cases hk : k = 0
  · simp [hk]
  · have hkpos : 0 < k := Nat.pos_of_ne_zero hk
    simp only [hk, if_false]
    split_ifs with h1 h2 h3
    · exact Or.inl rfl
    · exact Or.inr ⟨rfl, hkpos, by omega⟩
    · exact Or.inl rfl
    · exact Or.inr ⟨rfl, hkpos, by omega⟩

theorem truncFin_neg (r d : Nat) (hd : 0 < d) :
    truncFin (r : Int) (-(d : Int)) = ((r / 2 ^ d : Nat) : Int) := by
  have h : ¬ (0 : Int) ≤ -(d : Int) := by omega
  simp only [truncFin, h, if_false, neg_neg, Int.toNat_ofNat]
  rw [Int.ofNat_tdiv]
  push_cast
  rfl

theorem toUint_fin_neg (implDep r d : Nat) (hd : 0 < d) (h : r / 2 ^ d < 2 ^ 64) :
    toUint implDep (fin (r : Int) (-(d : Int))) = r / 2 ^ d := by
  have h1 : (0 : Int) ≤ ((r / 2 ^ d : Nat) : Int) := Int.ofNat_nonneg _
  have h2 : ((r / 2 ^ d : Nat) : Int) < 2 ^ 64 := by exact_mod_cast h
  simp only [toUint, truncFin_neg r d hd, h1, h2, and_self, if_true, Int.toNat_ofNat]


/-- Truncating the rounded value of `n / 2^d` below `2^52` gives the truncated exact value
or one more, and one more only when the exact value is at least half way up. -/
theorem toUint_round_neg (implDep n d : Nat) (hd : 0 < d) (hn : n < 2 ^ (52 + d)) :
    toUint implDep (round false n (-(d : Int))) = n / 2 ^ d ∨
    (toUint implDep (round false n (-(d : Int))) = n / 2 ^ d + 1 ∧
      (2 * (n / 2 ^ d) + 1) * 2 ^ d ≤ 2 * n) := by
  have hbl : bitLen n ≤ 52 + d := bitLen_le_of_lt n _ hn
  have hN : n / 2 ^ d < 2 ^ 52 := by
    rw [Nat.div_lt_iff_lt_mul (by positivity), ← pow_add]
    exact hn
  unfold round
  dsimp only
  by_cases hk : max ((bitLen n : Int) - 53) (-1074 - -(d : Int)) ≤ 0
  · rw [if_pos hk]
    have hov : ¬ ((bitLen n : Int) + -(d : Int) > 1024) := by omega
    rw [if_neg hov]
    left
    have : signed false n = (n : Int) := by simp [signed]
    rw [this]
    exact toUint_fin_neg implDep n d hd (by omega)
  · rw [if_neg hk]
    obtain ⟨k, hkdef⟩ : ∃ k : Nat,
        max ((bitLen n : Int) - 53) (-1074 - -(d : Int)) = (k : Int) :=
      ⟨(max ((bitLen n : Int) - 53) (-1074 - -(d : Int))).toNat,
        (Int.toNat_of_nonneg (by omega)).symm⟩
    have hkpos : 0 < k := by omega
    have hkd : k < d := by omega
    have hkbl : bitLen n ≤ 53 + k := by omega
    rw [hkdef, Int.toNat_ofNat]
    obtain ⟨j, hj⟩ : ∃ j : Nat, d = j + k := ⟨d - k, by omega⟩
    have hjpos : 0 < j := by omega
    have he : -(d : Int) + (k : Int) = -(j : Int) := by omega
    -- the quotient before rounding
    have hq : n / 2 ^ k < 2 ^ (52 + j) := by
      rw [Nat.div_lt_iff_lt_mul (by positivity), ← pow_add]
      have : 52 + j + k = 52 + d := by omega
      rw [this]
      exact hn
    have hdiv : n / 2 ^ d = n / 2 ^ k / 2 ^ j := by
      rw [Nat.div_div_eq_div_mul, ← pow_add, hj, Nat.add_comm k j]
    have hr := rneShift_spec n k
    have hrle : rneShift n k ≤ n / 2 ^ k + 1 := by
      rcases hr with h | ⟨h, _, _⟩ <;> omega
    have hrlt : rneShift n k < 2 ^ (53 + j) := by
      have : 2 ^ (53 + j) = 2 * 2 ^ (52 + j) := by
        rw [show 53 + j = (52 + j) + 1 by omega, pow_succ]
        ring
      have hp : 0 < 2 ^ (52 + j) := by positivity
      omega
    have hblr : bitLen (rneShift n k) ≤ 53 + j := bitLen_le_of_lt _ _ hrlt
    have hov : ¬ ((bitLen (rneShift n k) : Int) + (-(d : Int) + (k : Int)) > 1024) := by
      omega
    rw [if_neg hov, he]
    have : signed false (rneShift n k) = (rneShift n k : Int) := by simp [signed]
    rw [this]
    have hv : rneShift n k / 2 ^ j < 2 ^ 64 := by
      have : rneShift n k / 2 ^ j < 2 ^ 53 := by
        rw [Nat.div_lt_iff_lt_mul (by positivity), ← pow_add]
        exact hrlt
      have h2 : (2 : Nat) ^ 53 < 2 ^ 64 := by norm_num
      omega
    rw [toUint_fin_neg implDep _ j hjpos hv, hdiv]
    have hjp : 0 < 2 ^ j := by positivity
    rcases hr with h | ⟨h, _, hhalf⟩
    · left
      rw [h]
    · rw [h]
      have hstep : (n / 2 ^ k + 1) / 2 ^ j = n / 2 ^ k / 2 ^ j
          ∨ (n / 2 ^ k + 1) / 2 ^ j = n / 2 ^ k / 2 ^ j + 1 := by
        have h1 : n / 2 ^ k / 2 ^ j ≤ (n / 2 ^ k + 1) / 2 ^ j :=
          Nat.div_le_div_right (by omega)
        have h2 : (n / 2 ^ k + 1) / 2 ^ j ≤ n / 2 ^ k / 2 ^ j + 1 := by
          rw [Nat.div_le_iff_le_mul_add_pred hjp]
          have := Nat.div_add_mod (n / 2 ^ k) (2 ^ j)
          have := Nat.mod_lt (n / 2 ^ k) hjp
          nlinarith
        omega
      rcases hstep with h0 | h1
      · left
        exact h0
      · right
        refine ⟨h1, ?_⟩
        -- (N + 1) * 2^j ≤ q + 1
        have hle : (n / 2 ^ k / 2 ^ j + 1) * 2 ^ j ≤ n / 2 ^ k + 1 := by
          rw [← h1]
          exact Nat.div_mul_le_self _ _
        have hn2 := Nat.div_add_mod n (2 ^ k)
        have hkp : 2 ^ k = 2 * 2 ^ (k - 1) := by
          rw [show k = (k - 1) + 1 by omega, pow_succ]
          simp
          ring
        have hdk : 2 ^ d = 2 ^ j * 2 ^ k := by rw [hj, pow_add]
        rw [hdk]
        have hkp' : 0 < 2 ^ k := by positivity
        nlinarith

theorem toUint_round_nonneg (implDep n e : Nat) (he : e ≤ 1) (hn : n * 2 ^ e < 2 ^ 52) :
    toUint implDep (round false n (e : Int)) = n * 2 ^ e := by
  have hpos : 0 < 2 ^ e := by positivity
  have hn' : n < 2 ^ 52 := lt_of_le_of_lt (Nat.le_mul_of_pos_right n hpos) hn
  have hbl : bitLen n ≤ 52 := bitLen_le_of_lt n _ hn'
  unfold round
  dsimp only
  have hk : max ((bitLen n : Int) - 53) (-1074 - (e : Int)) ≤ 0 := by omega
  have hov : ¬ ((bitLen n : Int) + (e : Int) > 1024) := by omega
  rw [if_pos hk, if_neg hov]
  have h0 : (0 : Int) ≤ (e : Int) := Int.ofNat_nonneg _
  have hcast : (n : Int) * 2 ^ e = ((n * 2 ^ e : Nat) : Int) := by push_cast; rfl
  have h1 : (0 : Int) ≤ ((n * 2 ^ e : Nat) : Int) := Int.ofNat_nonneg _
  have h2 : ((n * 2 ^ e : Nat) : Int) < 2 ^ 64 := by
    have h3 : (2 : Nat) ^ 52 < 2 ^ 64 := by norm_num
    exact_mod_cast lt_trans hn h3
  simp only [toUint, truncFin, signed, h0, if_true, Int.toNat_ofNat, hcast, h1, h2,
    and_self, Bool.false_eq_true, if_false]

theorem ofInt_natCast (W : Nat) (hW : W < 2 ^ 51) : ofInt (W : Int) = fin (W : Int) 0 := by
  have hbl : bitLen W ≤ 51 := bitLen_le_of_lt W _ hW
  have hneg : decide ((W : Int) < 0) = false := by
    simp
  unfold ofInt
  rw [hneg, Int.natAbs_ofNat]
  unfold round
  dsimp only
  have hk : max ((bitLen W : Int) - 53) (-1074 - 0) ≤ 0 := by omega
  have hov : ¬ ((bitLen W : Int) + 0 > 1024) := by omega
  rw [if_pos hk, if_neg hov]
  simp [signed]

/-- A finite scale that passes the range check of `parseScale` is positive and at
most 2. -/
theorem scale_in_range (m e : Int)
    (hlo : lt (fin m e) smallestDownScale = false)
    (hhi : gt (fin m e) largestUpScale = false) :
    0 < m ∧ (0 ≤ e → m * 2 ^ e.toNat ≤ 2) ∧ (e < 0 → m ≤ 2 * 2 ^ (-e).toNat) := by
  simp only [lt, gt, smallestDownScale, largestUpScale, dyadicLt, decide_eq_false_iff_not,
    not_lt] at hlo hhi
  refine ⟨?_, ?_, ?_⟩
  · by_contra hm
    have hm' : m ≤ 0 := not_lt.mp hm
    have h1 : m * 2 ^ (e - min e (-55)).toNat ≤ 0 :=
      mul_nonpos_of_nonpos_of_nonneg hm' (by positivity)
    have h2 : (0 : Int) < 3602879701896397 * 2 ^ (-55 - min e (-55)).toNat := by positivity
    omega
  · intro he
    have hmin : min (0 : Int) e = 0 := min_eq_left he
    rw [hmin] at hhi
    simpa using hhi
  · intro he
    have hmin : min (0 : Int) e = e := min_eq_right (le_of_lt he)
    rw [hmin] at hhi
    simpa using hhi

end F64

theorem round_bounds_of_div (n d v : Nat)
    (h : v = n / 2 ^ d ∨ (v = n / 2 ^ d + 1 ∧ (2 * (n / 2 ^ d) + 1) * 2 ^ d ≤ 2 * n)) :
    round ((n : ℚ) / 2 ^ d) - 1 ≤ (v : ℤ) ∧ (v : ℤ) ≤ round ((n : ℚ) / 2 ^ d) := by
  have hp : (0 : ℚ) < 2 ^ d := by positivity
  have hlow : ((n / 2 ^ d : Nat) : ℚ) ≤ (n : ℚ) / 2 ^ d := by
    rw [le_div_iff₀ hp]
    exact_mod_cast Nat.div_mul_le_self n (2 ^ d)
  have hupp : (n : ℚ) / 2 ^ d < ((n / 2 ^ d : Nat) : ℚ) + 1 := by
    rw [div_lt_iff₀ hp]
    have : n < (n / 2 ^ d + 1) * 2 ^ d := by
      have h1 := Nat.div_add_mod n (2 ^ d)
      have h2 := Nat.mod_lt n (show 0 < 2 ^ d by positivity)
      nlinarith
    exact_mod_cast this
  have hhalf : v = n / 2 ^ d + 1 → ((n / 2 ^ d : Nat) : ℚ) + 1 / 2 ≤ (n : ℚ) / 2 ^ d := by
    intro hv
    rcases h with h | ⟨_, h⟩
    · omega
    · have hq : ((2 * (n / 2 ^ d) + 1 : Nat) : ℚ) ≤ 2 * ((n : ℚ) / 2 ^ d) := by
        rw [← mul_div_assoc, le_div_iff₀ hp]
        exact_mod_cast h
      rw [Nat.cast_add, Nat.cast_mul] at hq
      simp only [Nat.cast_ofNat, Nat.cast_one] at hq
      linarith
  have hv : v = n / 2 ^ d ∨ v = n / 2 ^ d + 1 := by
    rcases h with h | ⟨h, _⟩
    · exact Or.inl h
    · exact Or.inr h
  generalize n / 2 ^ d = N at hlow hupp hhalf hv
  generalize (n : ℚ) / 2 ^ d = x at hlow hupp hhalf
  rw [round_eq]
  have hfl : ⌊x + 1 / 2⌋ < (N : ℤ) + 2 := by
    rw [Int.floor_lt]
    push_cast
    linarith
  rcases hv with hv | hv
  · subst hv
    refine ⟨by omega, ?_⟩
    rw [Int.le_floor]
    push_cast
    linarith
  · subst hv
    refine ⟨by push_cast; omega, ?_⟩
    rw [Int.le_floor]
    have := hhalf rfl
    push_cast
    linarith

/-- The width computed by `uint(float64(width) * scale)` is the nearest integer to the
exact product or one less. -/
theorem newWidth_bounds (implDep W : Nat) (m e : Int) (hW : W < 2 ^ 51)
    (hlo : F64.lt (F64.fin m e) smallestDownScale = false)
    (hhi : F64.gt (F64.fin m e) largestUpScale = false) :
    round ((W : ℚ) * ((m : ℚ) * 2 ^ e)) - 1
        ≤ (F64.toUint implDep (F64.mul (F64.ofInt (W : Int)) (F64.fin m e)) : ℤ) ∧
      (F64.toUint implDep (F64.mul (F64.ofInt (W : Int)) (F64.fin m e)) : ℤ)
        ≤ round ((W : ℚ) * ((m : ℚ) * 2 ^ e)) := by
  obtain ⟨hm, h1, h2⟩ := F64.scale_in_range m e hlo hhi
  obtain ⟨mN, rfl⟩ := Int.eq_ofNat_of_zero_le (le_of_lt hm)
  have hmN : 0 < mN := by exact_mod_cast hm
  have hmul : F64.mul (F64.ofInt (W : Int)) (F64.fin (mN : Int) e)
      = F64.round false (W * mN) e := by
    rw [F64.ofInt_natCast W hW]
    have hneg1 : decide ((W : Int) < 0) = false := by simp
    have hneg2 : decide ((mN : Int) < 0) = false := by simp
    simp only [F64.mul, hneg1, hneg2, Int.natAbs_ofNat, zero_add, bne_self_eq_false]
  rw [hmul]
  by_cases he : 0 ≤ e
  · obtain ⟨eN, rfl⟩ := Int.eq_ofNat_of_zero_le he
    have h1' : mN * 2 ^ eN ≤ 2 := by
      have := h1 he
      rw [Int.toNat_ofNat] at this
      exact_mod_cast this
    have heN : eN ≤ 1 := by
      by_contra hc
      have h4 : 2 ^ 2 ≤ 2 ^ eN := Nat.pow_le_pow_right (by norm_num) (by omega)
      have h5 : 2 ^ eN ≤ mN * 2 ^ eN := Nat.le_mul_of_pos_left _ hmN
      omega
    have hn : W * mN * 2 ^ eN < 2 ^ 52 := by
      have h6 : W * mN * 2 ^ eN = W * (mN * 2 ^ eN) := by ring
      have h7 : W * (mN * 2 ^ eN) ≤ W * 2 := Nat.mul_le_mul_left _ h1'
      have h8 : (2 : Nat) ^ 52 = 2 ^ 51 * 2 := by norm_num
      omega
    rw [F64.toUint_round_nonneg implDep (W * mN) eN heN hn]
    have hx : (W : ℚ) * (((mN : Int) : ℚ) * 2 ^ (eN : Int))
        = ((W * mN * 2 ^ eN : Nat) : ℚ) := by
      push_cast
      rw [zpow_natCast]
      ring
    rw [hx, round_natCast]
    constructor <;> omega
  · obtain ⟨d, hd⟩ : ∃ d : Nat, e = -(d : Int) := ⟨(-e).toNat, by omega⟩
    subst hd
    have hdpos : 0 < d := by omega
    have h2' : mN ≤ 2 * 2 ^ d := by
      have := h2 (by omega)
      rw [neg_neg, Int.toNat_ofNat] at this
      exact_mod_cast this
    have hn : W * mN < 2 ^ (52 + d) := by
      have h3 : W * mN ≤ W * (2 * 2 ^ d) := Nat.mul_le_mul_left _ h2'
      have h4 : W * (2 * 2 ^ d) < 2 ^ 51 * (2 * 2 ^ d) :=
        Nat.mul_lt_mul_of_pos_right hW (by positivity)
      have h5 : 2 ^ (52 + d) = 2 ^ 51 * (2 * 2 ^ d) := by
        rw [pow_add]
        norm_num
        ring
      omega
    have hx : (W : ℚ) * (((mN : Int) : ℚ) * 2 ^ (-(d : Int)))
        = ((W * mN : Nat) : ℚ) / 2 ^ d := by
      push_cast
      rw [zpow_neg, zpow_natCast]
      field_simp
    rw [hx]
    exact round_bounds_of_div (W * mN) d _ (F64.toUint_round_neg implDep (W * mN) d hdpos hn)

/-- Claim C9 as stated fails: for the stored image of width 7 and the scale 0.25, which
is within the range, `resizeImage` passes the width 1 (and the height 0) to the resampler,
while round(7 × 0.25) = round(1.75) = 2. -/
theorem resizeImage_truncates :
    F64.lt (F64.fin 1 (-2)) smallestDownScale = false ∧
    F64.gt (F64.fin 1 (-2)) largestUpScale = false ∧
    F64.toRat (F64.fin 1 (-2)) = some (1 / 4) ∧
    resizeImage downloadEnvImage "receipts/a1bc/F.jpg".toList (F64.fin 1 (-2))
      = .ok ⟨1, 0, ⟨7, 1, []⟩, Interp.NearestNeighbor⟩ ∧
    round ((7 : ℚ) * (1 / 4)) = 2 := by
  refine ⟨by decide, by decide, ?_, rfl, ?_⟩
  · simp only [F64.toRat]
    norm_num
  · rw [round_eq, Int.floor_eq_iff]
    norm_num

/-- Claim C9, amended: when the file is read and decoded with source width `W` (below
`2^51`) and the scale `S = m * 2^e` passes the range check, `resizeImage` passes to the
resampler the decoded image, the height 0 and a width that is the `float64` product
`W × S` truncated toward zero: this width is round(W × S) or round(W × S) − 1. -/
theorem resizeImage_target_width (env : DownloadEnv) (path : Str) (raw : Bytes)
    (img : Image) (W : Nat) (m e : Int)
    (hread : env.ReadFile path = some raw)
    (hconfig : env.DecodeConfig raw = some (W : Int))
    (hdecode : env.Decode raw = some img)
    (hW : W < 2 ^ 51)
    (hlo : F64.lt (F64.fin m e) smallestDownScale = false)
    (hhi : F64.gt (F64.fin m e) largestUpScale = false) :
    ∃ newWidth : Nat,
      resizeImage env path (F64.fin m e)
        = .ok ⟨newWidth, 0, img, Interp.NearestNeighbor⟩ ∧
      newWidth = F64.toUint env.uintImplDep (F64.mul (F64.ofInt (W : Int)) (F64.fin m e)) ∧
      round ((W : ℚ) * ((m : ℚ) * 2 ^ e)) - 1 ≤ (newWidth : ℤ) ∧
      (newWidth : ℤ) ≤ round ((W : ℚ) * ((m : ℚ) * 2 ^ e)) := by
  refine ⟨F64.toUint env.uintImplDep (F64.mul (F64.ofInt (W : Int)) (F64.fin m e)),
    ?_, rfl, newWidth_bounds env.uintImplDep W m e hW hlo hhi⟩
  simp only [resizeImage, hread, hconfig, hdecode]

/-- Claim C9, amended, at the stored image of width 7 and the scale 1.5: the width
passed is 10, and round(10.5) − 1 ≤ 10 ≤ round(10.5). -/
theorem resizeImage_target_width_witness :
    ∃ newWidth : Nat,
      resizeImage downloadEnvImage "receipts/a1bc/F.jpg".toList (F64.fin 3 (-1))
        = .ok ⟨newWidth, 0, ⟨7, 1, []⟩, Interp.NearestNeighbor⟩ ∧
      newWidth = F64.toUint downloadEnvImage.uintImplDep
        (F64.mul (F64.ofInt ((7 : Nat) : Int)) (F64.fin 3 (-1))) ∧
      round (((7 : Nat) : ℚ) * (((3 : Int) : ℚ) * 2 ^ (-1 : Int))) - 1 ≤ (newWidth : ℤ) ∧
      (newWidth : ℤ) ≤ round (((7 : Nat) : ℚ) * (((3 : Int) : ℚ) * 2 ^ (-1 : Int))) :=
  resizeImage_target_width downloadEnvImage "receipts/a1bc/F.jpg".toList jpegBytes
    ⟨7, 1, []⟩ 7 3 (-1) rfl rfl rfl (by norm_num) (by decide) (by decide)

end Uploader
